import Mathlib

/-!
Verification development for the Zero-Compiler toolchain (Rust sources under
src/): a lexer, AST, bytecode compiler, stack virtual machine, tree-walking
interpreter, type checker and a bytecode codec.  Each Lean definition is a
shallow embedding of the corresponding Rust item, translated from the source
file named in its doc comment.  The source tree mixes several revisions of the
crate: `ast/mod.rs` and `interpreter/mod.rs` belong to an older revision
without structs, while `compiler/mod.rs`, `type_checker/mod.rs` and
`bytecode/serializer.rs` reference struct features whose data definitions are
absent from `src/`.  Embeddings follow the revision each file actually
matches; divergences are noted in comments.

Modelling conventions:
* `i64` arithmetic uses unbounded `Int` with explicit two's-complement
  wrapping (`wrap64`) where Rust release mode wraps, and an explicit `panic`
  outcome where Rust panics in every profile (division overflow, out-of-bounds
  `Vec` indexing).
* `f64` payloads are modelled by the exact rational value they represent;
  `i64 as f64` casts are modelled by `i64ToF64`, correct rounding to nearest
  (ties to even) at binary64 precision.  NaN and signed zero never arise in
  the fragments the claims exercise.
* `HashMap` globals are modelled as association lists with cons-insert and
  first-match lookup, which has the same observable get/insert semantics.
* Fallible Rust code returns `Except`-style inductive outcomes; Rust panics
  are a separate outcome constructor.
-/

namespace Zero

/-! ## AST (`src/ast/mod.rs`) -/

/-- `BinaryOp` from `ast/mod.rs`. -/
inductive BinaryOp where
  | add | subtract | multiply | divide | modulo
  | equal | notEqual | less | lessEqual | greater | greaterEqual
  | and | or
  deriving DecidableEq, Repr

/-- `UnaryOp` from `ast/mod.rs`. -/
inductive UnaryOp where
  | not | negate
  deriving DecidableEq, Repr

/-- `Type` from `ast/mod.rs` (the older revision: no `Named`, `Struct`, `Char`). -/
inductive Ty where
  | int | float | string | bool | void | null
  | array (elem : Ty)
  | function (params : List Ty) (returnType : Ty)
  | unknown

/-- `Parameter` from `ast/mod.rs`. -/
structure Parameter where
  name : String
  typeAnn : Option Ty

/-- `Expr` from `ast/mod.rs`.  Float literals carry the exact rational value
of the `f64`. -/
inductive Expr where
  | integer (i : Int)
  | float (q : ℚ)
  | string (s : String)
  | boolean (b : Bool)
  | identifier (name : String)
  | array (elements : List Expr)
  | binary (left : Expr) (operator : BinaryOp) (right : Expr)
  | unary (operator : UnaryOp) (operand : Expr)
  | call (callee : Expr) (arguments : List Expr)
  | index (object : Expr) (idx : Expr)
  | indexAssign (object : Expr) (idx : Expr) (value : Expr)
  | assign (name : String) (value : Expr)

/-- `Stmt` from `ast/mod.rs`. -/
inductive Stmt where
  | expression (e : Expr)
  | varDeclaration (name : String) (mutable : Bool)
      (typeAnn : Option Ty) (initializer : Option Expr)
  | fnDeclaration (name : String) (parameters : List Parameter)
      (returnType : Option Ty) (body : List Stmt)
  | ret (value : Option Expr)
  | ifStmt (condition : Expr) (thenBranch : List Stmt)
      (elseBranch : Option (List Stmt))
  | whileStmt (condition : Expr) (body : List Stmt)
  | forStmt (var : String) (start : Expr) (stop : Expr) (body : List Stmt)
  | print (value : Expr)
  | block (statements : List Stmt)

/-- `Program` from `ast/mod.rs`. -/
structure Program where
  statements : List Stmt

/-! ## Machine-integer helpers -/

/-- The value `i64::MIN`. -/
def i64Min : Int := -(2 ^ 63)

/-- The value `i64::MAX`. -/
def i64Max : Int := 2 ^ 63 - 1

/-- Two's-complement wrap to 64 bits (Rust release-mode overflow behaviour
for `+`, `-`, `*` and unary `-` on `i64`). -/
def wrap64 (x : Int) : Int := (x + 2 ^ 63).emod (2 ^ 64) - 2 ^ 63

/-- Predicate: `x` is representable as an `i64`. -/
def fitsI64 (x : Int) : Prop := i64Min ≤ x ∧ x ≤ i64Max

instance (x : Int) : Decidable (fitsI64 x) := by unfold fitsI64; infer_instance

/-- Round a natural number to the nearest multiple of `s` (`s ≠ 0`), ties to
the even multiple: the rounding step of binary64 conversion. -/
def roundNearestEven (n s : Nat) : Nat :=
  let q := n / s
  let r := n % s
  if 2 * r < s then q * s
  else if 2 * r > s then (q + 1) * s
  else if q % 2 = 0 then q * s else (q + 1) * s

/-- Floor of the base-2 logarithm with an explicit halving budget (the first
argument); agrees with `Nat.log2` whenever the budget covers the number of
halvings, which `natLog2` guarantees. -/
def log2Fuel : Nat → Nat → Nat
  | 0, _ => 0
  | fuel + 1, n => if n ≥ 2 then log2Fuel fuel (n / 2) + 1 else 0

/-- `⌊log2 n⌋` (at most `n` halvings are ever needed). -/
def natLog2 (n : Nat) : Nat := log2Fuel n n

/-- The exact integer value of the binary64 float produced by an `i64 as f64`
cast in Rust (round to nearest, ties to even).  Magnitudes up to `2 ^ 53` are
exact; larger magnitudes are rounded to a multiple of `2 ^ (⌊log2 n⌋ - 52)`. -/
def i64ToF64 (x : Int) : Int :=
  let n := x.natAbs
  if n ≤ 2 ^ 53 then x
  else
    let k := natLog2 n
    let rounded := roundNearestEven n (2 ^ (k - 52))
    if x < 0 then -(rounded : Int) else (rounded : Int)

/-! ## Bytecode data model (`src/bytecode/mod.rs`) -/

/-- `OpCode` from `bytecode/mod.rs`.  This revision of the instruction set has
no struct opcodes (the VM's `match` is exhaustive over exactly these). -/
inductive OpCode where
  | loadConst (idx : Nat)
  | loadNull
  | loadLocal (slot : Nat)
  | storeLocal (slot : Nat)
  | loadGlobal (idx : Nat)
  | storeGlobal (idx : Nat)
  | add | subtract | multiply | divide | modulo | negate
  | equal | notEqual | greater | greaterEqual | less | lessEqual
  | not | and | or
  | jump (offset : Nat)
  | jumpIfFalse (offset : Nat)
  | jumpIfTrue (offset : Nat)
  | loop (offset : Nat)
  | call (argCount : Nat)
  | ret
  | newArray (size : Nat)
  | arrayGet | arraySet | arrayLen
  | pop | dup
  | print | halt
  deriving DecidableEq, Repr

/-- `Value` from `bytecode/mod.rs`, with the `Function` payload flattened into
the constructor (Rust's `Function { name, arity, chunk, locals_count }` with
`Chunk { code, constants, lines }` inlined as the last four fields, in the
order name, arity, localsCount, code, constants, lines). -/
inductive Value where
  | integer (i : Int)
  | float (q : ℚ)
  | string (s : String)
  | boolean (b : Bool)
  | array (elems : List Value)
  | function (name : String) (arity : Nat) (localsCount : Nat)
      (code : List OpCode) (constants : List Value) (lines : List Nat)
  | null

/-- `Chunk` from `bytecode/mod.rs`. -/
structure Chunk where
  code : List OpCode
  constants : List Value
  lines : List Nat

/-- `Function` from `bytecode/mod.rs`. -/
structure Function where
  name : String
  arity : Nat
  chunk : Chunk
  localsCount : Nat

/-- Pack a `Function` into a `Value` (the `Value::Function` constructor). -/
def Function.toValue (f : Function) : Value :=
  .function f.name f.arity f.localsCount f.chunk.code f.chunk.constants f.chunk.lines

/-- Recover the `Function` carried by a `Value::Function`. -/
def Value.toFunction : Value → Option Function
  | .function name arity localsCount code constants lines =>
      some ⟨name, arity, ⟨code, constants, lines⟩, localsCount⟩
  | _ => none

mutual
/-- Structural equality on `Value`: the `#[derive(PartialEq)]` comparison used
by `OpCode::Equal` / `OpCode::NotEqual` (deep value equality, no numeric
promotion).  Float payloads compare by represented value; NaN and `-0.0` (the
two points where Rust `f64 == ` differs from structural equality) never reach
`Equal` in the claims treated here. -/
def Value.beq : Value → Value → Bool
  | .integer a, .integer b => a == b
  | .float a, .float b => a == b
  | .string a, .string b => a == b
  | .boolean a, .boolean b => a == b
  | .array a, .array b => Value.beqList a b
  | .function n₁ a₁ l₁ c₁ k₁ li₁, .function n₂ a₂ l₂ c₂ k₂ li₂ =>
      n₁ == n₂ && a₁ == a₂ && l₁ == l₂ && c₁ == c₂ && Value.beqList k₁ k₂ && li₁ == li₂
  | .null, .null => true
  | _, _ => false

/-- Elementwise `Value.beq` on lists. -/
def Value.beqList : List Value → List Value → Bool
  | [], [] => true
  | a :: as_, b :: bs => Value.beq a b && Value.beqList as_ bs
  | _, _ => false
end

/-- `Value::is_truthy` from `bytecode/mod.rs`. -/
def Value.isTruthy : Value → Bool
  | .boolean b => b
  | .null => false
  | .integer i => !(i == 0)
  | .float q => !(q == 0)
  | .array elems => !elems.isEmpty
  | _ => true

/-- Decimal rendering of an `f64` value.  The claims never print a float; this
stands in for Rust's `f64::to_string` only so that `Value.toString` is total
(documented approximation, not exercised by any theorem). -/
def floatToString (q : ℚ) : String :=
  if q.den = 1 then toString q.num else toString q.num ++ "/" ++ toString q.den

mutual
/-- `Value::to_string` from `bytecode/mod.rs` (the display form printed by
`OpCode::Print`). -/
def Value.toString : Value → String
  | .integer i => ToString.toString i
  | .float q => floatToString q
  | .string s => s
  | .boolean b => ToString.toString b
  | .array elems => "[" ++ Value.toStringList elems ++ "]"
  | .function _ _ _ _ _ _ => "<function>"
  | .null => "null"

/-- `", "`-joined renderings of array elements (the `join(", ")` in
`Value::to_string`). -/
def Value.toStringList : List Value → String
  | [] => ""
  | [v] => Value.toString v
  | v :: rest => Value.toString v ++ ", " ++ Value.toStringList rest
end

/-! ## Virtual machine (`src/vm/mod.rs`) -/

/-- `VMError` from `vm/mod.rs`. -/
inductive VMError where
  | stackUnderflow
  | stackOverflow
  | typeError (msg : String)
  | undefinedVariable (name : String)
  | divisionByZero
  | invalidOperation (msg : String)
  deriving DecidableEq, Repr

/-- `CallFrame` from `vm/mod.rs`. -/
structure CallFrame where
  function : Function
  ip : Nat
  stackOffset : Nat

/-- The VM state (`struct VM` plus the accumulated stdout of `Print`).
The operand stack is listed bottom first, matching `Vec` indices. -/
structure VMState where
  stack : List Value
  globals : List (String × Value)
  frames : List CallFrame
  currentFrame : Nat
  output : List String

/-- One `run`-loop outcome: continue in a new state, clean termination
(`Ok(())` from `Return` with no caller, or `Halt`), a `VMError`, or a Rust
panic (out-of-bounds `Vec` indexing / arithmetic overflow checked in every
profile). -/
inductive StepResult where
  | next (s : VMState)
  | done (s : VMState)
  | err (e : VMError) (s : VMState)
  | panic (s : VMState)

/-- HashMap lookup on the association-list model of `globals`. -/
def globalsGet (g : List (String × Value)) (name : String) : Option Value :=
  (g.find? (fun p => p.1 == name)).map (·.2)

/-- HashMap insert on the association-list model of `globals`. -/
def globalsInsert (g : List (String × Value)) (name : String) (v : Value) :
    List (String × Value) :=
  (name, v) :: g

/-- `VM::push`: bounded at 1024 values. -/
def VMState.push (s : VMState) (v : Value) : Except VMError VMState :=
  if s.stack.length ≥ 1024 then .error .stackOverflow
  else .ok { s with stack := s.stack ++ [v] }

/-- `VM::pop`. -/
def VMState.popV (s : VMState) : Except VMError (Value × VMState) :=
  match s.stack.getLast? with
  | none => .error .stackUnderflow
  | some v => .ok (v, { s with stack := s.stack.dropLast })

/-- `VM::peek`. -/
def VMState.peekV (s : VMState) (distance : Nat) : Except VMError Value :=
  if distance ≥ s.stack.length then .error .stackUnderflow
  else
    match s.stack.get? (s.stack.length - 1 - distance) with
    | some v => .ok v
    | none => .error .stackUnderflow

/-- The closure passed to `binary_op` for `OpCode::Add`. -/
def addOp : Value → Value → Except VMError Value
  | .integer x, .integer y => .ok (.integer (wrap64 (x + y)))
  | .float x, .float y => .ok (.float (x + y))
  | .integer x, .float y => .ok (.float ((i64ToF64 x : ℚ) + y))
  | .float x, .integer y => .ok (.float (x + (i64ToF64 y : ℚ)))
  | .string x, .string y => .ok (.string (x ++ y))
  | _, _ => .error (.typeError "Invalid operands for addition")

/-- The closure passed to `binary_op` for `OpCode::Subtract`. -/
def subOp : Value → Value → Except VMError Value
  | .integer x, .integer y => .ok (.integer (wrap64 (x - y)))
  | .float x, .float y => .ok (.float (x - y))
  | .integer x, .float y => .ok (.float ((i64ToF64 x : ℚ) - y))
  | .float x, .integer y => .ok (.float (x - (i64ToF64 y : ℚ)))
  | _, _ => .error (.typeError "Invalid operands for subtraction")

/-- The closure passed to `binary_op` for `OpCode::Multiply`. -/
def mulOp : Value → Value → Except VMError Value
  | .integer x, .integer y => .ok (.integer (wrap64 (x * y)))
  | .float x, .float y => .ok (.float (x * y))
  | .integer x, .float y => .ok (.float ((i64ToF64 x : ℚ) * y))
  | .float x, .integer y => .ok (.float (x * (i64ToF64 y : ℚ)))
  | _, _ => .error (.typeError "Invalid operands for multiplication")

/-- Marker for closures that can panic (i64 division overflow, which Rust
checks in every build profile). -/
inductive ArithResult where
  | ok (v : Value)
  | err (e : VMError)
  | panic

/-- The closure passed to `binary_op` for `OpCode::Divide`.  Rust `i64`
division panics on `i64::MIN / -1`; float division is modelled exactly (the
claims never inspect a rounded float quotient). -/
def divOp : Value → Value → ArithResult
  | .integer x, .integer y =>
      if y = 0 then .err .divisionByZero
      else if x = i64Min ∧ y = -1 then .panic
      else .ok (.integer (Int.tdiv x y))
  | .float x, .float y =>
      if y = 0 then .err .divisionByZero else .ok (.float (x / y))
  | .integer x, .float y =>
      if y = 0 then .err .divisionByZero
      else .ok (.float ((i64ToF64 x : ℚ) / y))
  | .float x, .integer y =>
      if y = 0 then .err .divisionByZero
      else .ok (.float (x / (i64ToF64 y : ℚ)))
  | _, _ => .err (.typeError "Invalid operands for division")

/-- The closure passed to `binary_op` for `OpCode::Modulo` (only defined on
two integers; `i64::MIN % -1` panics in Rust). -/
def modOp : Value → Value → ArithResult
  | .integer x, .integer y =>
      if y = 0 then .err .divisionByZero
      else if x = i64Min ∧ y = -1 then .panic
      else .ok (.integer (Int.tmod x y))
  | _, _ => .err (.typeError "Invalid operands for modulo")

/-- `VM::comparison_op`'s operand conversion: both operands to `f64`
(`x as f64` on integers), then the rational value the floats represent. -/
def comparisonOperands : Value → Value → Option (ℚ × ℚ)
  | .integer x, .integer y => some ((i64ToF64 x : ℚ), (i64ToF64 y : ℚ))
  | .float x, .float y => some (x, y)
  | .integer x, .float y => some ((i64ToF64 x : ℚ), y)
  | .float x, .integer y => some (x, (i64ToF64 y : ℚ))
  | _, _ => none

/-- `VM::binary_op`: pop `b` then `a`, apply, push. -/
def VMState.binaryOp (s : VMState) (op : Value → Value → Except VMError Value) :
    StepResult :=
  match s.popV with
  | .error e => .err e s
  | .ok (b, s₁) =>
    match s₁.popV with
    | .error e => .err e s₁
    | .ok (a, s₂) =>
      match op a b with
      | .error e => .err e s₂
      | .ok v =>
        match s₂.push v with
        | .error e => .err e s₂
        | .ok s₃ => .next s₃

/-- `VM::binary_op` for the division/modulo closures (which can panic). -/
def VMState.binaryOpArith (s : VMState) (op : Value → Value → ArithResult) :
    StepResult :=
  match s.popV with
  | .error e => .err e s
  | .ok (b, s₁) =>
    match s₁.popV with
    | .error e => .err e s₁
    | .ok (a, s₂) =>
      match op a b with
      | .err e => .err e s₂
      | .panic => .panic s₂
      | .ok v =>
        match s₂.push v with
        | .error e => .err e s₂
        | .ok s₃ => .next s₃

/-- `VM::comparison_op`: pop `b` then `a`, convert both to `f64`, compare,
push a boolean. -/
def VMState.comparisonOp (s : VMState) (op : ℚ → ℚ → Bool) : StepResult :=
  match s.popV with
  | .error e => .err e s
  | .ok (b, s₁) =>
    match s₁.popV with
    | .error e => .err e s₁
    | .ok (a, s₂) =>
      match comparisonOperands a b with
      | none => .err (.typeError "Cannot compare non-numeric values") s₂
      | some (x, y) =>
        match s₂.push (.boolean (op x y)) with
        | .error e => .err e s₂
        | .ok s₃ => .next s₃

/-- Update the element at index `i` of a list, if present. -/
def listModify (l : List α) (i : Nat) (f : α → α) : List α :=
  match l.get? i with
  | some a => l.set i (f a)
  | none => l

/-- Replace `frames[currentFrame].ip` with `ip`. -/
def VMState.setIp (s : VMState) (ip : Nat) : VMState :=
  { s with frames := listModify s.frames s.currentFrame (fun f => { f with ip := ip }) }

/-- One iteration of `VM::run`'s fetch-decode-dispatch loop, translated case
by case from `vm/mod.rs`.  `ip` is incremented before dispatch, so branches
assign the target directly. -/
def step (s₀ : VMState) : StepResult :=
  match s₀.frames.get? s₀.currentFrame with
  | none => .panic s₀
  | some frame =>
    match frame.function.chunk.code.get? frame.ip with
    | none => .panic s₀
    | some instruction =>
      let s := s₀.setIp (frame.ip + 1)
      match instruction with
      | .loadConst idx =>
        match frame.function.chunk.constants.get? idx with
        | none => .panic s
        | some v =>
          match s.push v with
          | .error e => .err e s
          | .ok s₁ => .next s₁
      | .loadNull =>
        match s.push .null with
        | .error e => .err e s
        | .ok s₁ => .next s₁
      | .loadLocal slot =>
        match s.stack.get? (frame.stackOffset + slot) with
        | none => .panic s
        | some v =>
          match s.push v with
          | .error e => .err e s
          | .ok s₁ => .next s₁
      | .storeLocal slot =>
        match s.peekV 0 with
        | .error e => .err e s
        | .ok v =>
          if frame.stackOffset + slot < s.stack.length then
            .next { s with stack := s.stack.set (frame.stackOffset + slot) v }
          else .panic s
      | .loadGlobal idx =>
        match frame.function.chunk.constants.get? idx with
        | none => .panic s
        | some (.string name) =>
          match globalsGet s.globals name with
          | none => .err (.undefinedVariable name) s
          | some v =>
            match s.push v with
            | .error e => .err e s
            | .ok s₁ => .next s₁
        | some _ => .err (.typeError "Expected string for variable name") s
      | .storeGlobal idx =>
        match frame.function.chunk.constants.get? idx with
        | none => .panic s
        | some (.string name) =>
          match s.peekV 0 with
          | .error e => .err e s
          | .ok v => .next { s with globals := globalsInsert s.globals name v }
        | some _ => .err (.typeError "Expected string for variable name") s
      | .add => s.binaryOp addOp
      | .subtract => s.binaryOp subOp
      | .multiply => s.binaryOp mulOp
      | .divide => s.binaryOpArith divOp
      | .modulo => s.binaryOpArith modOp
      | .negate =>
        match s.popV with
        | .error e => .err e s
        | .ok (v, s₁) =>
          match v with
          | .integer i =>
            match s₁.push (.integer (wrap64 (-i))) with
            | .error e => .err e s₁
            | .ok s₂ => .next s₂
          | .float q =>
            match s₁.push (.float (-q)) with
            | .error e => .err e s₁
            | .ok s₂ => .next s₂
          | _ => .err (.typeError "Cannot negate non-numeric value") s₁
      | .equal =>
        match s.popV with
        | .error e => .err e s
        | .ok (b, s₁) =>
          match s₁.popV with
          | .error e => .err e s₁
          | .ok (a, s₂) =>
            match s₂.push (.boolean (Value.beq a b)) with
            | .error e => .err e s₂
            | .ok s₃ => .next s₃
      | .notEqual =>
        match s.popV with
        | .error e => .err e s
        | .ok (b, s₁) =>
          match s₁.popV with
          | .error e => .err e s₁
          | .ok (a, s₂) =>
            match s₂.push (.boolean (!Value.beq a b)) with
            | .error e => .err e s₂
            | .ok s₃ => .next s₃
      | .greater => s.comparisonOp (fun a b => decide (a > b))
      | .greaterEqual => s.comparisonOp (fun a b => decide (a ≥ b))
      | .less => s.comparisonOp (fun a b => decide (a < b))
      | .lessEqual => s.comparisonOp (fun a b => decide (a ≤ b))
      | .not =>
        match s.popV with
        | .error e => .err e s
        | .ok (v, s₁) =>
          match s₁.push (.boolean (!v.isTruthy)) with
          | .error e => .err e s₁
          | .ok s₂ => .next s₂
      | .and =>
        match s.popV with
        | .error e => .err e s
        | .ok (b, s₁) =>
          match s₁.popV with
          | .error e => .err e s₁
          | .ok (a, s₂) =>
            match s₂.push (.boolean (a.isTruthy && b.isTruthy)) with
            | .error e => .err e s₂
            | .ok s₃ => .next s₃
      | .or =>
        match s.popV with
        | .error e => .err e s
        | .ok (b, s₁) =>
          match s₁.popV with
          | .error e => .err e s₁
          | .ok (a, s₂) =>
            match s₂.push (.boolean (a.isTruthy || b.isTruthy)) with
            | .error e => .err e s₂
            | .ok s₃ => .next s₃
      | .jump offset => .next (s.setIp offset)
      | .jumpIfFalse offset =>
        match s.peekV 0 with
        | .error e => .err e s
        | .ok condition =>
          if condition.isTruthy then .next s else .next (s.setIp offset)
      | .jumpIfTrue offset =>
        match s.peekV 0 with
        | .error e => .err e s
        | .ok condition =>
          if condition.isTruthy then .next (s.setIp offset) else .next s
      | .loop offset => .next (s.setIp offset)
      | .call argCount =>
        match s.peekV argCount with
        | .error e => .err e s
        | .ok callee =>
          match callee.toFunction with
          | none => .err (.typeError "Can only call functions") s
          | some func =>
            if func.arity ≠ argCount then
              .err (.invalidOperation
                ("Expected " ++ toString func.arity ++ " arguments but got "
                  ++ toString argCount)) s
            else
              let stackOffset := s.stack.length - argCount - 1
              let stack' := s.stack.eraseIdx stackOffset
              .next { s with
                stack := stack'
                frames := s.frames ++
                  [⟨func, 0, stack'.length - argCount⟩]
                currentFrame := s.currentFrame + 1 }
      | .ret =>
        match s.popV with
        | .error e => .err e s
        | .ok (result, s₁) =>
          match s₁.frames.get? s₁.currentFrame with
          | none => .panic s₁
          | some frame' =>
            let s₂ := { s₁ with
              stack := s₁.stack.take frame'.stackOffset
              frames := s₁.frames.dropLast }
            if s₂.frames.isEmpty then .done s₂
            else
              let s₃ := { s₂ with currentFrame := s₂.currentFrame - 1 }
              match s₃.push result with
              | .error e => .err e s₃
              | .ok s₄ => .next s₄
      | .pop =>
        match s.popV with
        | .error e => .err e s
        | .ok (_, s₁) => .next s₁
      | .dup =>
        match s.peekV 0 with
        | .error e => .err e s
        | .ok v =>
          match s.push v with
          | .error e => .err e s
          | .ok s₁ => .next s₁
      | .newArray size =>
        if size ≤ s.stack.length then
          let elems := (s.stack.drop (s.stack.length - size))
          let s₁ := { s with stack := s.stack.take (s.stack.length - size) }
          match s₁.push (.array elems) with
          | .error e => .err e s₁
          | .ok s₂ => .next s₂
        else .err .stackUnderflow { s with stack := [] }
      | .arrayGet =>
        match s.popV with
        | .error e => .err e s
        | .ok (indexV, s₁) =>
          match s₁.popV with
          | .error e => .err e s₁
          | .ok (arrayV, s₂) =>
            match indexV with
            | .integer idx =>
              match arrayV with
              | .array arr =>
                let actualIdx : Nat :=
                  if idx < 0 then (((arr.length : Int) + idx).emod (2 ^ 64)).toNat
                  else idx.toNat
                if h : actualIdx < arr.length then
                  match s₂.push (arr.get ⟨actualIdx, h⟩) with
                  | .error e => .err e s₂
                  | .ok s₃ => .next s₃
                else
                  .err (.invalidOperation
                    ("Array index " ++ toString idx ++ " out of bounds (length: "
                      ++ toString arr.length ++ ")")) s₂
              | _ => .err (.typeError "Can only index arrays") s₂
            | _ => .err (.typeError "Array index must be an integer") s₂
      | .arraySet =>
        match s.popV with
        | .error e => .err e s
        | .ok (value, s₁) =>
          match s₁.popV with
          | .error e => .err e s₁
          | .ok (indexV, s₂) =>
            match s₂.popV with
            | .error e => .err e s₂
            | .ok (arrayV, s₃) =>
              match indexV with
              | .integer idx =>
                match arrayV with
                | .array arr =>
                  let actualIdx : Nat :=
                    if idx < 0 then (((arr.length : Int) + idx).emod (2 ^ 64)).toNat
                    else idx.toNat
                  if actualIdx < arr.length then
                    -- the source pushes the modified array, then the assigned
                    -- value ("返回被赋的值"), leaving the VALUE on top
                    match s₃.push (.array (arr.set actualIdx value)) with
                    | .error e => .err e s₃
                    | .ok s₄ =>
                      match s₄.push value with
                      | .error e => .err e s₄
                      | .ok s₅ => .next s₅
                  else
                    .err (.invalidOperation
                      ("Array index " ++ toString idx ++ " out of bounds (length: "
                        ++ toString arr.length ++ ")")) s₃
                | _ => .err (.typeError "Can only index arrays") s₃
              | _ => .err (.typeError "Array index must be an integer") s₃
      | .arrayLen =>
        match s.popV with
        | .error e => .err e s
        | .ok (arrayV, s₁) =>
          match arrayV with
          | .array arr =>
            match s₁.push (.integer arr.length) with
            | .error e => .err e s₁
            | .ok s₂ => .next s₂
          | _ => .err (.typeError "Can only get length of arrays") s₁
      | .print =>
        match s.popV with
        | .error e => .err e s
        | .ok (v, s₁) => .next { s₁ with output := s₁.output ++ [v.toString] }
      | .halt => .done s

/-- Final outcome of running the VM for at most `fuel` steps. -/
inductive RunResult where
  | halted (s : VMState)
  | errored (e : VMError) (s : VMState)
  | panicked (s : VMState)
  | outOfFuel (s : VMState)

/-- Iterate `step` (the `loop` in `VM::run`), bounded by `fuel`. -/
def run : Nat → VMState → RunResult
  | 0, s => .outOfFuel s
  | fuel + 1, s =>
    match step s with
    | .next s₁ => run fuel s₁
    | .done s₁ => .halted s₁
    | .err e s₁ => .errored e s₁
    | .panic s₁ => .panicked s₁

/-- `VM::execute`: wrap the chunk in the `<script>` main function, push the
initial frame onto a fresh VM and run. -/
def vmExecute (fuel : Nat) (chunk : Chunk) : RunResult :=
  run fuel
    { stack := []
      globals := []
      frames := [⟨⟨"<script>", 0, chunk, 0⟩, 0, 0⟩]
      currentFrame := 0
      output := [] }

/-- The printed output carried by a `RunResult`. -/
def RunResult.output : RunResult → List String
  | .halted s => s.output
  | .errored _ s => s.output
  | .panicked s => s.output
  | .outOfFuel s => s.output

/-- The operand stack carried by a `RunResult`. -/
def RunResult.stack : RunResult → List Value
  | .halted s => s.stack
  | .errored _ s => s.stack
  | .panicked s => s.stack
  | .outOfFuel s => s.stack

/-- The error carried by a `RunResult`, if it ended in a `VMError`. -/
def RunResult.error? : RunResult → Option VMError
  | .errored e _ => some e
  | _ => none

/-- Did the run terminate cleanly? -/
def RunResult.isHalted : RunResult → Bool
  | .halted _ => true
  | _ => false

/-! ## Bytecode compiler (`src/compiler/mod.rs`)

The compiler file belongs to a richer crate revision: its
`Expr::StructLiteral`, `Expr::FieldAccess`, `Expr::FieldAssign`,
`Stmt::StructDeclaration` and `Stmt::TypeAlias` arms match constructors that
do not exist in `src/ast/mod.rs`, and emit `NewStruct`/`FieldGet`/`FieldSet`
opcodes that do not exist in `src/bytecode/mod.rs`.  The embedding covers the
arms expressible over the AST and instruction set actually present in `src/`
(which is all any claim exercises); the struct arms and the `structs` registry
they use are therefore not modelled. -/

/-- `CompileError` from `compiler/mod.rs`. -/
inductive CompileError where
  | undefinedVariable (name : String)
  | tooManyConstants
  | tooManyLocals
  | invalidBreakContinue
  | undefinedStruct (name : String)
  | undefinedField (structName fieldName : String)
  deriving DecidableEq, Repr

/-- `Local` from `compiler/mod.rs`. -/
structure Local where
  name : String
  depth : Nat
  isMutable : Bool

/-- The mutable fields of `struct Compiler` (minus the struct registry, see
above). -/
structure CState where
  chunk : Chunk
  locals : List Local
  scopeDepth : Nat
  loopStarts : List Nat
  loopBreaks : List (List Nat)

/-- `Compiler::new()`. -/
def freshCState : CState :=
  { chunk := ⟨[], [], []⟩, locals := [], scopeDepth := 0
    loopStarts := [], loopBreaks := [] }

/-- Compilation outcome: success with result and updated compiler, a
`CompileError`, or a Rust panic (`patch_jump` on a non-jump instruction or an
out-of-bounds `code` index). -/
inductive COut (α : Type) where
  | ok (a : α) (st : CState)
  | err (e : CompileError)
  | panicked
  | fuelOut

/-- `Compiler::emit` / `Chunk::write`. -/
def emit (st : CState) (op : OpCode) (line : Nat) : CState :=
  { st with chunk := { st.chunk with
      code := st.chunk.code ++ [op]
      lines := st.chunk.lines ++ [line] } }

/-- `Chunk::add_constant`: append and return the new index. -/
def addConstant (st : CState) (v : Value) : Nat × CState :=
  (st.chunk.constants.length,
    { st with chunk := { st.chunk with constants := st.chunk.constants ++ [v] } })

/-- `Compiler::identifier_constant`: intern the name as a `String` constant
(always succeeds in the source). -/
def identifierConstant (st : CState) (name : String) : Nat × CState :=
  addConstant st (.string name)

/-- `Compiler::emit_jump`: emit with placeholder target, return its offset. -/
def emitJump (st : CState) (op : OpCode) : Nat × CState :=
  let st₁ := emit st op 0
  (st₁.chunk.code.length - 1, st₁)

/-- `Compiler::patch_jump`: rewrite the jump at `offset` to target the current
end of `code`; panics on a non-jump instruction (and `code[offset]` panics
when out of bounds). -/
def patchJump (st : CState) (offset : Nat) : COut Unit :=
  let target := st.chunk.code.length
  match st.chunk.code.get? offset with
  | some (.jump _) =>
      .ok () { st with chunk := { st.chunk with
        code := st.chunk.code.set offset (.jump target) } }
  | some (.jumpIfFalse _) =>
      .ok () { st with chunk := { st.chunk with
        code := st.chunk.code.set offset (.jumpIfFalse target) } }
  | some (.jumpIfTrue _) =>
      .ok () { st with chunk := { st.chunk with
        code := st.chunk.code.set offset (.jumpIfTrue target) } }
  | _ => .panicked

/-- `Compiler::add_local`: errors with `TooManyLocals` at 256 locals. -/
def addLocal (st : CState) (name : String) (isMutable : Bool) : COut Unit :=
  if st.locals.length ≥ 256 then .err .tooManyLocals
  else .ok () { st with locals := st.locals ++ [⟨name, st.scopeDepth, isMutable⟩] }

/-- `Compiler::resolve_local`: reverse scan for the name; `none` plays the
role of the `Err(UndefinedVariable)` the callers treat as "not a local". -/
def resolveLocal (st : CState) (name : String) : Option Nat :=
  (st.locals.enum.reverse.find? (fun p => p.2.name == name)).map (·.1)

/-- `Compiler::begin_scope`. -/
def beginScope (st : CState) : CState :=
  { st with scopeDepth := st.scopeDepth + 1 }

/-- The count of trailing locals deeper than `depth` (the `while` condition of
`end_scope`), computed over the reversed locals vector. -/
def countDeeper (depth : Nat) : List Local → Nat
  | [] => 0
  | l :: rest => if l.depth > depth then 1 + countDeeper depth rest else 0

/-- `Compiler::end_scope`: decrement the depth and pop each deeper local,
emitting one `Pop` per popped slot. -/
def endScope (st : CState) : CState :=
  let newDepth := st.scopeDepth - 1
  let n := countDeeper newDepth st.locals.reverse
  let st₁ := { st with scopeDepth := newDepth
                       locals := st.locals.take (st.locals.length - n) }
  { st₁ with chunk := { st₁.chunk with
      code := st₁.chunk.code ++ List.replicate n .pop
      lines := st₁.chunk.lines ++ List.replicate n 0 } }

/-- Patch every recorded break jump (the `for break_jump in breaks` loop). -/
def patchJumps (st : CState) : List Nat → COut Unit
  | [] => .ok () st
  | j :: rest =>
    match patchJump st j with
    | .ok _ st₁ => patchJumps st₁ rest
    | .err e => .err e
    | .panicked => .panicked
    | .fuelOut => .fuelOut

/-- Declare each parameter as a local of the fresh function compiler. -/
def addParamLocals (st : CState) : List Parameter → COut Unit
  | [] => .ok () st
  | p :: rest =>
    match addLocal st p.name false with
    | .ok _ st₁ => addParamLocals st₁ rest
    | .err e => .err e
    | .panicked => .panicked
    | .fuelOut => .fuelOut

/-- Result of `Compiler::compile_function` (compiled in a fresh compiler, so
independent of the caller state). -/
inductive FOut where
  | ok (f : Function)
  | err (e : CompileError)
  | panicked
  | fuelOut

/-- The five mutually recursive compilation routines of `struct Compiler`,
packaged as one record so that the fuel recursion below is a plain `Nat.rec`
(an encoding chosen purely so that concrete compilations reduce inside the
kernel; the bodies are the arm-by-arm translation of `compiler/mod.rs`). -/
structure CompilerFns where
  expr : Expr → CState → COut Unit
  exprList : List Expr → CState → COut Unit
  stmt : Stmt → CState → COut Unit
  stmts : List Stmt → CState → COut Unit
  func : String → List Parameter → List Stmt → FOut

/-- The out-of-fuel bottom of the compiler-recursion chain. -/
def compilersZero : CompilerFns :=
  ⟨fun _ _ => .fuelOut, fun _ _ => .fuelOut, fun _ _ => .fuelOut,
   fun _ _ => .fuelOut, fun _ _ _ => .fuelOut⟩

/-- One level of the compiler recursion: each routine may call any routine of
the previous level `prev`. -/
def compilersStep (prev : CompilerFns) : CompilerFns where

/- `Compiler::compile_expression`, arm by arm from `compiler/mod.rs` (struct
arms omitted, see the section comment). -/
  expr := fun e st =>
  match e with
  | .integer n =>
    let (idx, st₁) := addConstant st (.integer n)
    .ok () (emit st₁ (.loadConst idx) 0)
  | .float q =>
    let (idx, st₁) := addConstant st (.float q)
    .ok () (emit st₁ (.loadConst idx) 0)
  | .string s =>
    let (idx, st₁) := addConstant st (.string s)
    .ok () (emit st₁ (.loadConst idx) 0)
  | .boolean b =>
    let (idx, st₁) := addConstant st (.boolean b)
    .ok () (emit st₁ (.loadConst idx) 0)
  | .identifier name =>
    match resolveLocal st name with
    | some slot => .ok () (emit st (.loadLocal slot) 0)
    | none =>
      let (idx, st₁) := identifierConstant st name
      .ok () (emit st₁ (.loadGlobal idx) 0)
  | .binary left operator right =>
    match operator with
    | .and =>
      match prev.expr left st with
      | .ok _ st₁ =>
        let (jmp, st₂) := emitJump st₁ (.jumpIfFalse 0)
        let st₃ := emit st₂ .pop 0
        match prev.expr right st₃ with
        | .ok _ st₄ => patchJump st₄ jmp
        | other => other
      | other => other
    | .or =>
      match prev.expr left st with
      | .ok _ st₁ =>
        let (jmp, st₂) := emitJump st₁ (.jumpIfTrue 0)
        let st₃ := emit st₂ .pop 0
        match prev.expr right st₃ with
        | .ok _ st₄ => patchJump st₄ jmp
        | other => other
      | other => other
    | op =>
      match prev.expr left st with
      | .ok _ st₁ =>
        match prev.expr right st₁ with
        | .ok _ st₂ =>
          let opcode : OpCode :=
            match op with
            | .add => .add
            | .subtract => .subtract
            | .multiply => .multiply
            | .divide => .divide
            | .modulo => .modulo
            | .equal => .equal
            | .notEqual => .notEqual
            | .greater => .greater
            | .greaterEqual => .greaterEqual
            | .less => .less
            | .lessEqual => .lessEqual
            | .and => .and
            | .or => .or
          .ok () (emit st₂ opcode 0)
        | other => other
      | other => other
  | .unary operator operand =>
    match prev.expr operand st with
    | .ok _ st₁ =>
      match operator with
      | .negate => .ok () (emit st₁ .negate 0)
      | .not => .ok () (emit st₁ .not 0)
    | other => other
  | .assign name value =>
    match prev.expr value st with
    | .ok _ st₁ =>
      match resolveLocal st₁ name with
      | some slot => .ok () (emit st₁ (.storeLocal slot) 0)
      | none =>
        let (idx, st₂) := identifierConstant st₁ name
        .ok () (emit st₂ (.storeGlobal idx) 0)
    | other => other
  | .call callee arguments =>
    match prev.expr callee st with
    | .ok _ st₁ =>
      match prev.exprList arguments st₁ with
      | .ok _ st₂ => .ok () (emit st₂ (.call arguments.length) 0)
      | other => other
    | other => other
  | .array elements =>
    match prev.exprList elements st with
    | .ok _ st₁ => .ok () (emit st₁ (.newArray elements.length) 0)
    | other => other
  | .index object idx =>
    match prev.expr object st with
    | .ok _ st₁ =>
      match prev.expr idx st₁ with
      | .ok _ st₂ => .ok () (emit st₂ .arrayGet 0)
      | other => other
    | other => other
  | .indexAssign object idx value =>
    let varName : Option String :=
      match object with
      | .identifier name => some name
      | _ => none
    match prev.expr object st with
    | .ok _ st₁ =>
      match prev.expr idx st₁ with
      | .ok _ st₂ =>
        match prev.expr value st₂ with
        | .ok _ st₃ =>
          let st₄ := emit st₃ .arraySet 0
          match varName with
          | some name =>
            match resolveLocal st₄ name with
            | some slot => .ok () (emit st₄ (.storeLocal slot) 0)
            | none =>
              let (cidx, st₅) := identifierConstant st₄ name
              .ok () (emit st₅ (.storeGlobal cidx) 0)
          | none => .ok () st₄
        | other => other
      | other => other
    | other => other

/- Left-to-right compilation of an expression list (argument and array
element loops). -/
  exprList := fun es st =>
  match es with
  | [] => .ok () st
  | e :: rest =>
    match prev.expr e st with
    | .ok _ st₁ => prev.exprList rest st₁
    | other => other

/- `Compiler::compile_statement`, arm by arm from `compiler/mod.rs`
(`StructDeclaration` / `TypeAlias` arms omitted, see the section comment). -/
  stmt := fun stmt st =>
  match stmt with
  | .expression e =>
    match prev.expr e st with
    | .ok _ st₁ => .ok () (emit st₁ .pop 0)
    | other => other
  | .varDeclaration name mutable _ initializer =>
    let afterInit : COut Unit :=
      match initializer with
      | some init => prev.expr init st
      | none => .ok () (emit st .loadNull 0)
    match afterInit with
    | .ok _ st₁ =>
      if st₁.scopeDepth = 0 then
        let (idx, st₂) := identifierConstant st₁ name
        .ok () (emit (emit st₂ (.storeGlobal idx) 0) .pop 0)
      else addLocal st₁ name mutable
    | other => other
  | .fnDeclaration name parameters _ body =>
    match prev.func name parameters body with
    | .err e => .err e
    | .panicked => .panicked
    | .fuelOut => .fuelOut
    | .ok func =>
      let (idx, st₁) := addConstant st func.toValue
      let st₂ := emit st₁ (.loadConst idx) 0
      if st₂.scopeDepth = 0 then
        let (nameIdx, st₃) := identifierConstant st₂ name
        .ok () (emit (emit st₃ (.storeGlobal nameIdx) 0) .pop 0)
      else addLocal st₂ name false
  | .ret value =>
    let afterValue : COut Unit :=
      match value with
      | some e => prev.expr e st
      | none => .ok () (emit st .loadNull 0)
    match afterValue with
    | .ok _ st₁ => .ok () (emit st₁ .ret 0)
    | other => other
  | .ifStmt condition thenBranch elseBranch =>
    match prev.expr condition st with
    | .ok _ st₁ =>
      let (thenJump, st₂) := emitJump st₁ (.jumpIfFalse 0)
      let st₃ := beginScope (emit st₂ .pop 0)
      match prev.stmts thenBranch st₃ with
      | .ok _ st₄ =>
        let st₅ := endScope st₄
        let (elseJump, st₆) := emitJump st₅ (.jump 0)
        match patchJump st₆ thenJump with
        | .ok _ st₇ =>
          let st₈ := emit st₇ .pop 0
          let afterElse : COut Unit :=
            match elseBranch with
            | some elseStmts =>
              match prev.stmts elseStmts (beginScope st₈) with
              | .ok _ st₉ => .ok () (endScope st₉)
              | other => other
            | none => .ok () st₈
          match afterElse with
          | .ok _ st₁₀ => patchJump st₁₀ elseJump
          | other => other
        | other => other
      | other => other
    | other => other
  | .whileStmt condition body =>
    let loopStart := st.chunk.code.length
    let st₁ := { st with loopStarts := loopStart :: st.loopStarts
                         loopBreaks := [] :: st.loopBreaks }
    match prev.expr condition st₁ with
    | .ok _ st₂ =>
      let (exitJump, st₃) := emitJump st₂ (.jumpIfFalse 0)
      let st₄ := beginScope (emit st₃ .pop 0)
      match prev.stmts body st₄ with
      | .ok _ st₅ =>
        let st₆ := emit (endScope st₅) (.loop loopStart) 0
        match patchJump st₆ exitJump with
        | .ok _ st₇ =>
          let st₈ := emit st₇ .pop 0
          match st₈.loopBreaks with
          | breaks :: restBreaks =>
            match patchJumps { st₈ with loopBreaks := restBreaks } breaks with
            | .ok _ st₉ => .ok () { st₉ with loopStarts := st₉.loopStarts.tail }
            | other => other
          | [] => .ok () { st₈ with loopStarts := st₈.loopStarts.tail }
        | other => other
      | other => other
    | other => other
  | .forStmt var start stop body =>
    let st₁ := beginScope st
    match prev.expr start st₁ with
    | .ok _ st₂ =>
      match addLocal st₂ var true with
      | .ok _ st₃ =>
        match prev.expr stop st₃ with
        | .ok _ st₄ =>
          let endLocal := st₄.locals.length
          match addLocal st₄ "__end__" false with
          | .ok _ st₅ =>
            let loopStart := st₅.chunk.code.length
            let st₆ := { st₅ with loopStarts := loopStart :: st₅.loopStarts
                                  loopBreaks := [] :: st₅.loopBreaks }
            match resolveLocal st₆ var with
            | none => .err (.undefinedVariable var)
            | some varSlot =>
              let st₇ := emit (emit (emit st₆ (.loadLocal varSlot) 0)
                (.loadLocal endLocal) 0) .less 0
              let (exitJump, st₈) := emitJump st₇ (.jumpIfFalse 0)
              let st₉ := emit st₈ .pop 0
              match prev.stmts body st₉ with
              | .ok _ st₁₀ =>
                let st₁₁ := emit st₁₀ (.loadLocal varSlot) 0
                let (oneIdx, st₁₂) := addConstant st₁₁ (.integer 1)
                let st₁₃ := emit (emit (emit (emit st₁₂ (.loadConst oneIdx) 0)
                  .add 0) (.storeLocal varSlot) 0) .pop 0
                let st₁₄ := emit st₁₃ (.loop loopStart) 0
                match patchJump st₁₄ exitJump with
                | .ok _ st₁₅ =>
                  let st₁₆ := emit st₁₅ .pop 0
                  let afterBreaks : COut Unit :=
                    match st₁₆.loopBreaks with
                    | breaks :: restBreaks =>
                      patchJumps { st₁₆ with loopBreaks := restBreaks } breaks
                    | [] => .ok () st₁₆
                  match afterBreaks with
                  | .ok _ st₁₇ =>
                    .ok () (endScope { st₁₇ with loopStarts := st₁₇.loopStarts.tail })
                  | other => other
                | other => other
              | other => other
          | other => other
        | other => other
      | other => other
    | other => other
  | .print value =>
    match prev.expr value st with
    | .ok _ st₁ => .ok () (emit st₁ .print 0)
    | other => other
  | .block statements =>
    match prev.stmts statements (beginScope st) with
    | .ok _ st₁ => .ok () (endScope st₁)
    | other => other

/- Sequential compilation of a statement list. -/
  stmts := fun stmts st =>
  match stmts with
  | [] => .ok () st
  | s :: rest =>
    match prev.stmt s st with
    | .ok _ st₁ => prev.stmts rest st₁
    | other => other

/- `Compiler::compile_function`: compile the body in a fresh compiler, with
parameters declared as locals and a guaranteed LoadNull/Return tail. -/
  func := fun name parameters body =>
  let st₀ := beginScope freshCState
  match addParamLocals st₀ parameters with
  | .err e => .err e
  | .panicked => .panicked
  | .fuelOut => .fuelOut
  | .ok _ st₁ =>
    match prev.stmts body st₁ with
    | .ok _ st₂ =>
      let st₃ := emit (emit st₂ .loadNull 0) .ret 0
      .ok ⟨name, parameters.length, st₃.chunk, st₃.locals.length⟩
    | .err e => .err e
    | .panicked => .panicked
    | .fuelOut => .fuelOut


/-- The compiler routines with recursion depth at most `fuel`. -/
def compilers : Nat → CompilerFns :=
  fun fuel => Nat.rec compilersZero (fun _ prev => compilersStep prev) fuel

/-- `Compiler::compile_expression` (see `compilersStep.expr`). -/
def compileExpr (fuel : Nat) : Expr → CState → COut Unit :=
  (compilers fuel).expr

/-- Left-to-right compilation of an expression list. -/
def compileExprList (fuel : Nat) : List Expr → CState → COut Unit :=
  (compilers fuel).exprList

/-- `Compiler::compile_statement` (see `compilersStep.stmt`). -/
def compileStmt (fuel : Nat) : Stmt → CState → COut Unit :=
  (compilers fuel).stmt

/-- Sequential compilation of a statement list. -/
def compileStmts (fuel : Nat) : List Stmt → CState → COut Unit :=
  (compilers fuel).stmts

/-- `Compiler::compile_function` (see `compilersStep.func`). -/
def compileFunction (fuel : Nat) : String → List Parameter → List Stmt → FOut :=
  (compilers fuel).func

/-- Overall compilation outcome of `Compiler::compile`. -/
inductive CompileResult where
  | ok (chunk : Chunk)
  | err (e : CompileError)
  | panicked
  | fuelOut

/-- `Compiler::compile`: compile every statement, then append `Halt`.
`fuel` bounds the AST recursion depth of the embedding (the source recursion
is structural on the AST). -/
def compileProgram (fuel : Nat) (p : Program) : CompileResult :=
  match compileStmts fuel p.statements freshCState with
  | .ok _ st => .ok (emit st .halt 0).chunk
  | .err e => .err e
  | .panicked => .panicked
  | .fuelOut => .fuelOut

/-- Compile a program and execute the chunk on the VM (the `prog <source>`
pipeline after parsing and type checking). -/
def compileAndRun (p : Program) (cfuel vfuel : Nat) : Option RunResult :=
  match compileProgram cfuel p with
  | .ok chunk => some (vmExecute vfuel chunk)
  | _ => none

/-! ## Tree-walking interpreter (`src/interpreter/mod.rs`)

This file matches the older AST revision in `src/ast/mod.rs` exactly.  Arrays
are explicitly unimplemented in it: an array literal evaluates to the
placeholder string `Array[n]` and indexing raises `InvalidOperation`. -/

namespace Interp

/-- `Value` from `interpreter/mod.rs` (no arrays; functions carry their AST). -/
inductive IValue where
  | integer (i : Int)
  | float (q : ℚ)
  | string (s : String)
  | boolean (b : Bool)
  | function (parameters : List Parameter) (body : List Stmt)
  | null

/-- `Value::to_string` from `interpreter/mod.rs`. -/
def IValue.toString : IValue → String
  | .integer i => ToString.toString i
  | .float q => floatToString q
  | .string s => s
  | .boolean b => ToString.toString b
  | .function _ _ => "<function>"
  | .null => "null"

/-- `Value::is_truthy` from `interpreter/mod.rs`. -/
def IValue.isTruthy : IValue → Bool
  | .boolean b => b
  | .null => false
  | .integer i => !(i == 0)
  | .float q => !(q == 0)
  | _ => true

/-- `Interpreter::values_equal`: only same-tag primitive pairs compare equal
(there is no `Function` arm, so two functions are never equal). -/
def valuesEqual : IValue → IValue → Bool
  | .integer l, .integer r => l == r
  | .float l, .float r => l == r
  | .string l, .string r => l == r
  | .boolean l, .boolean r => l == r
  | .null, .null => true
  | _, _ => false

/-- `RuntimeError` from `interpreter/mod.rs`. -/
inductive IError where
  | undefinedVariable (name : String)
  | typeMismatch (msg : String)
  | divisionByZero
  | invalidOperation (msg : String)
  | returnValue (v : IValue)

/-- `Environment`: a stack of scopes.  The head of the list is the innermost
scope (the last element of the Rust `Vec`); each scope is an association list
with cons-insert/first-match lookup modelling the `HashMap`. -/
def Env : Type := List (List (String × IValue))

/-- `Environment::new`. -/
def envNew : Env := [[]]

/-- `Environment::push_scope`. -/
def envPush (env : Env) : Env := [] :: env

/-- `Environment::pop_scope`. -/
def envPop (env : Env) : Env := env.tail

/-- `Environment::define`: insert into the innermost scope. -/
def envDefine (env : Env) (name : String) (v : IValue) : Env :=
  match env with
  | [] => []
  | scope :: rest => ((name, v) :: scope) :: rest

/-- Lookup in one scope. -/
def scopeGet (scope : List (String × IValue)) (name : String) : Option IValue :=
  (scope.find? (fun p => p.1 == name)).map (·.2)

/-- `Environment::get`: innermost scope first. -/
def envGet : Env → String → Option IValue
  | [], _ => none
  | scope :: rest, name =>
    match scopeGet scope name with
    | some v => some v
    | none => envGet rest name

/-- `Environment::set`: write into the innermost scope already containing the
name; fail if no scope does. -/
def envSet : Env → String → IValue → Option Env
  | [], _, _ => none
  | scope :: rest, name, v =>
    if (scope.find? (fun p => p.1 == name)).isSome then
      some (((name, v) :: scope) :: rest)
    else
      (envSet rest name v).map (scope :: ·)

/-- Result of one interpreter call: value plus updated environment and
accumulated output, an error (the environment mutations and prints made
before the error persist), a Rust panic (i64 division overflow), or fuel
exhaustion of the embedding. -/
inductive IOut (α : Type) where
  | ok (a : α) (env : Env) (out : List String)
  | err (e : IError) (env : Env) (out : List String)
  | panicked
  | fuelOut

/-- `Interpreter::evaluate_binary` after both operands are evaluated,
operator arm by operator arm.  Comparisons accept only two integers or two
floats (no promotion); `And`/`Or` always produce a `Boolean` from
`is_truthy` of both operands (no short-circuit). -/
def binaryValues (operator : BinaryOp) (l r : IValue) :
    ArithResult ⊕ IValue :=
  match operator with
  | .add =>
    match l, r with
    | .integer a, .integer b => .inr (.integer (wrap64 (a + b)))
    | .float a, .float b => .inr (.float (a + b))
    | .integer a, .float b => .inr (.float ((i64ToF64 a : ℚ) + b))
    | .float a, .integer b => .inr (.float (a + (i64ToF64 b : ℚ)))
    | .string a, .string b => .inr (.string (a ++ b))
    | _, _ => .inl (.err (.typeError "Invalid addition"))
  | .subtract =>
    match l, r with
    | .integer a, .integer b => .inr (.integer (wrap64 (a - b)))
    | .float a, .float b => .inr (.float (a - b))
    | .integer a, .float b => .inr (.float ((i64ToF64 a : ℚ) - b))
    | .float a, .integer b => .inr (.float (a - (i64ToF64 b : ℚ)))
    | _, _ => .inl (.err (.typeError "Invalid subtraction"))
  | .multiply =>
    match l, r with
    | .integer a, .integer b => .inr (.integer (wrap64 (a * b)))
    | .float a, .float b => .inr (.float (a * b))
    | .integer a, .float b => .inr (.float ((i64ToF64 a : ℚ) * b))
    | .float a, .integer b => .inr (.float (a * (i64ToF64 b : ℚ)))
    | _, _ => .inl (.err (.typeError "Invalid multiplication"))
  | .divide =>
    match l, r with
    | .integer a, .integer b =>
      if b = 0 then .inl (.err .divisionByZero)
      else if a = i64Min ∧ b = -1 then .inl .panic
      else .inr (.integer (Int.tdiv a b))
    | .float a, .float b =>
      if b = 0 then .inl (.err .divisionByZero) else .inr (.float (a / b))
    | .integer a, .float b =>
      if b = 0 then .inl (.err .divisionByZero)
      else .inr (.float ((i64ToF64 a : ℚ) / b))
    | .float a, .integer b =>
      if b = 0 then .inl (.err .divisionByZero)
      else .inr (.float (a / (i64ToF64 b : ℚ)))
    | _, _ => .inl (.err (.typeError "Invalid division"))
  | .modulo =>
    match l, r with
    | .integer a, .integer b =>
      if b = 0 then .inl (.err .divisionByZero)
      else if a = i64Min ∧ b = -1 then .inl .panic
      else .inr (.integer (Int.tmod a b))
    | _, _ => .inl (.err (.typeError "Invalid modulo"))
  | .equal => .inr (.boolean (valuesEqual l r))
  | .notEqual => .inr (.boolean (!valuesEqual l r))
  | .less =>
    match l, r with
    | .integer a, .integer b => .inr (.boolean (decide (a < b)))
    | .float a, .float b => .inr (.boolean (decide (a < b)))
    | _, _ => .inl (.err (.typeError "Invalid comparison"))
  | .lessEqual =>
    match l, r with
    | .integer a, .integer b => .inr (.boolean (decide (a ≤ b)))
    | .float a, .float b => .inr (.boolean (decide (a ≤ b)))
    | _, _ => .inl (.err (.typeError "Invalid comparison"))
  | .greater =>
    match l, r with
    | .integer a, .integer b => .inr (.boolean (decide (a > b)))
    | .float a, .float b => .inr (.boolean (decide (a > b)))
    | _, _ => .inl (.err (.typeError "Invalid comparison"))
  | .greaterEqual =>
    match l, r with
    | .integer a, .integer b => .inr (.boolean (decide (a ≥ b)))
    | .float a, .float b => .inr (.boolean (decide (a ≥ b)))
    | _, _ => .inl (.err (.typeError "Invalid comparison"))
  | .and => .inr (.boolean (l.isTruthy && r.isTruthy))
  | .or => .inr (.boolean (l.isTruthy || r.isTruthy))

/-- Map an arithmetic closure error into the interpreter error type (the
shared shapes of `VMError` and `RuntimeError` messages differ; only the
variants produced by `binaryValues` are translated). -/
def arithToIError : VMError → IError
  | .divisionByZero => .divisionByZero
  | .typeError msg => .typeMismatch msg
  | .stackUnderflow => .invalidOperation "stack underflow"
  | .stackOverflow => .invalidOperation "stack overflow"
  | .undefinedVariable n => .undefinedVariable n
  | .invalidOperation msg => .invalidOperation msg

mutual

/-- `Interpreter::evaluate_expression`, arm by arm.  `fuel` bounds the
recursion depth and loop iterations of the embedding; the source recurses
without bound. -/
def evalExpr : Nat → Env → List String → Expr → IOut IValue
  | 0, _, _, _ => .fuelOut
  | fuel + 1, env, out, e =>
    match e with
    | .integer i => .ok (.integer i) env out
    | .float q => .ok (.float q) env out
    | .string s => .ok (.string s) env out
    | .boolean b => .ok (.boolean b) env out
    | .identifier name =>
      match envGet env name with
      | some v => .ok v env out
      | none => .err (.undefinedVariable name) env out
    | .binary left operator right =>
      match evalExpr fuel env out left with
      | .ok l env₁ out₁ =>
        match evalExpr fuel env₁ out₁ right with
        | .ok r env₂ out₂ =>
          match binaryValues operator l r with
          | .inr v => .ok v env₂ out₂
          | .inl (.err e) => .err (arithToIError e) env₂ out₂
          | .inl .panic => .panicked
          | .inl (.ok _) => .panicked
        | other => other
      | other => other
    | .unary operator operand =>
      match evalExpr fuel env out operand with
      | .ok v env₁ out₁ =>
        match operator with
        | .not => .ok (.boolean (!v.isTruthy)) env₁ out₁
        | .negate =>
          match v with
          | .integer i => .ok (.integer (wrap64 (-i))) env₁ out₁
          | .float q => .ok (.float (-q)) env₁ out₁
          | _ => .err (.typeMismatch "Invalid negation") env₁ out₁
      | other => other
    | .call callee arguments =>
      match evalExpr fuel env out callee with
      | .ok func env₁ out₁ =>
        match func with
        | .function parameters body =>
          if parameters.length ≠ arguments.length then
            .err (.typeMismatch
              ("Expected " ++ toString parameters.length ++ " arguments, got "
                ++ toString arguments.length)) env₁ out₁
          else
            match bindArgs fuel (envPush env₁) out₁ parameters arguments with
            | .ok _ env₂ out₂ =>
              match execStmts fuel env₂ out₂ body with
              | .ok _ env₃ out₃ => .ok .null (envPop env₃) out₃
              | .err (.returnValue v) env₃ out₃ => .ok v (envPop env₃) out₃
              | .err e env₃ out₃ => .err e (envPop env₃) out₃
              | .panicked => .panicked
              | .fuelOut => .fuelOut
            | .err e env₂ out₂ => .err e env₂ out₂
            | .panicked => .panicked
            | .fuelOut => .fuelOut
        | _ => .err (.typeMismatch "Not a callable function") env₁ out₁
      | other => other
    | .assign name value =>
      match evalExpr fuel env out value with
      | .ok v env₁ out₁ =>
        match envSet env₁ name v with
        | some env₂ => .ok v env₂ out₁
        | none => .err (.undefinedVariable name) env₁ out₁
      | other => other
    | .array elements =>
      -- placeholder implementation in the source ("TODO: 实现完整的数组支持")
      .ok (.string ("Array[" ++ toString elements.length ++ "]")) env out
    | .index _ _ =>
      .err (.invalidOperation "Array indexing not yet implemented") env out
    | .indexAssign _ _ value =>
      match evalExpr fuel env out value with
      | .ok v env₁ out₁ => .ok v env₁ out₁
      | other => other

/-- The argument-binding loop of `Interpreter::evaluate_call` (arguments are
evaluated after the new scope is pushed, and bound one by one). -/
def bindArgs : Nat → Env → List String → List Parameter → List Expr → IOut Unit
  | 0, _, _, _, _ => .fuelOut
  | _ + 1, env, out, [], _ => .ok () env out
  | _ + 1, env, out, _, [] => .ok () env out
  | fuel + 1, env, out, p :: ps, a :: as_ =>
    match evalExpr fuel env out a with
    | .ok v env₁ out₁ => bindArgs fuel (envDefine env₁ p.name v) out₁ ps as_
    | .err e env₁ out₁ => .err e env₁ out₁
    | .panicked => .panicked
    | .fuelOut => .fuelOut

/-- `Interpreter::execute_statement`, arm by arm. -/
def execStmt : Nat → Env → List String → Stmt → IOut IValue
  | 0, _, _, _ => .fuelOut
  | fuel + 1, env, out, stmt =>
    match stmt with
    | .expression e => evalExpr fuel env out e
    | .varDeclaration name _ _ initializer =>
      match initializer with
      | some init =>
        match evalExpr fuel env out init with
        | .ok v env₁ out₁ => .ok .null (envDefine env₁ name v) out₁
        | other => other
      | none => .ok .null (envDefine env name .null) out
    | .fnDeclaration name parameters _ body =>
      .ok .null (envDefine env name (.function parameters body)) out
    | .ret value =>
      match value with
      | some e =>
        match evalExpr fuel env out e with
        | .ok v env₁ out₁ => .err (.returnValue v) env₁ out₁
        | other => other
      | none => .err (.returnValue .null) env out
    | .ifStmt condition thenBranch elseBranch =>
      match evalExpr fuel env out condition with
      | .ok c env₁ out₁ =>
        if c.isTruthy then
          match execStmts fuel env₁ out₁ thenBranch with
          | .ok _ env₂ out₂ => .ok .null env₂ out₂
          | .err e env₂ out₂ => .err e env₂ out₂
          | .panicked => .panicked
          | .fuelOut => .fuelOut
        else
          match elseBranch with
          | some elseStmts =>
            match execStmts fuel env₁ out₁ elseStmts with
            | .ok _ env₂ out₂ => .ok .null env₂ out₂
            | .err e env₂ out₂ => .err e env₂ out₂
            | .panicked => .panicked
            | .fuelOut => .fuelOut
          | none => .ok .null env₁ out₁
      | other => other
    | .whileStmt condition body =>
      match evalExpr fuel env out condition with
      | .ok c env₁ out₁ =>
        if c.isTruthy then
          match execStmts fuel env₁ out₁ body with
          | .ok _ env₂ out₂ => execStmt fuel env₂ out₂ (.whileStmt condition body)
          | .err e env₂ out₂ => .err e env₂ out₂
          | .panicked => .panicked
          | .fuelOut => .fuelOut
        else .ok .null env₁ out₁
      | other => other
    | .forStmt var start stop body =>
      match evalExpr fuel env out start with
      | .ok startV env₁ out₁ =>
        match evalExpr fuel env₁ out₁ stop with
        | .ok stopV env₂ out₂ =>
          match startV, stopV with
          | .integer startI, .integer stopI =>
            match forLoop fuel (envPush env₂) out₂ var startI stopI body with
            | .ok _ env₃ out₃ => .ok .null (envPop env₃) out₃
            | .err e env₃ out₃ => .err e env₃ out₃
            | .panicked => .panicked
            | .fuelOut => .fuelOut
          | _, _ =>
            .err (.typeMismatch "For loop requires integer range") env₂ out₂
        | other => other
      | other => other
    | .print value =>
      match evalExpr fuel env out value with
      | .ok v env₁ out₁ => .ok .null env₁ (out₁ ++ [v.toString])
      | other => other
    | .block statements =>
      match execStmts fuel (envPush env) out statements with
      | .ok _ env₁ out₁ => .ok .null (envPop env₁) out₁
      | .err e env₁ out₁ => .err e env₁ out₁
      | .panicked => .panicked
      | .fuelOut => .fuelOut

/-- `for i in start_i..end_i { … }` body of `Stmt::For` (the scope is pushed
once, and the loop variable redefined on each iteration). -/
def forLoop : Nat → Env → List String → String → Int → Int → List Stmt →
    IOut Unit
  | 0, _, _, _, _, _, _ => .fuelOut
  | fuel + 1, env, out, var, i, stop, body =>
    if i < stop then
      match execStmts fuel (envDefine env var (.integer i)) out body with
      | .ok _ env₁ out₁ => forLoop fuel env₁ out₁ var (i + 1) stop body
      | .err e env₁ out₁ => .err e env₁ out₁
      | other => other
    else .ok () env out

/-- Statement-list loops (`for stmt in … { self.execute_statement(stmt)?; }`);
the statement values are discarded. -/
def execStmts : Nat → Env → List String → List Stmt → IOut Unit
  | 0, _, _, _ => .fuelOut
  | _ + 1, env, out, [] => .ok () env out
  | fuel + 1, env, out, s :: rest =>
    match execStmt fuel env out s with
    | .ok _ env₁ out₁ => execStmts fuel env₁ out₁ rest
    | .err e env₁ out₁ => .err e env₁ out₁
    | .panicked => .panicked
    | .fuelOut => .fuelOut

end

/-- `Interpreter::interpret` on a fresh interpreter (the `--old` execution
mode), returning the accumulated stdout. -/
def interpret (fuel : Nat) (p : Program) : IOut Unit :=
  execStmts fuel envNew [] p.statements

end Interp

/-! ## Lexer (`src/lexer/mod.rs`)

The lexer file constructs tokens with `Token::new(token_type, value)`, the
older two-field `Token` revision (no source positions); tokens are embedded
accordingly.  The scanner walks the character vector by position; here the
remaining character list stands for the positions from `self.position` on. -/

namespace Lex

/-- `TokenType` from `lexer/token.rs`. -/
inductive TokenType where
  | integer | float | string | char | identifier
  | letTok | varTok | fnTok | returnTok | ifTok | elseTok | whileTok
  | forTok | inTok | trueTok | falseTok | printTok
  | intTok | int64Tok | float64Tok | string64Tok | boolTok | voidTok | nullTok
  | plus | minus | star | slash | percent
  | plusEqual | minusEqual | starEqual | slashEqual | percentEqual
  | equal | equalEqual | bang | bangEqual
  | less | lessEqual | greater | greaterEqual
  | and | or
  | leftParen | rightParen | leftBrace | rightBrace
  | leftBracket | rightBracket
  | comma | semicolon | colon | dot | dotDot | arrow
  | scientificExponent
  | eof | unknown
  deriving DecidableEq, Repr

/-- The two fields of `Token` the lexer revision populates. -/
structure Token where
  tokenType : TokenType
  value : String
  deriving DecidableEq, Repr

/-- `TokenType::get_keyword`. -/
def getKeyword (word : String) : Option TokenType :=
  if word == "let" then some .letTok
  else if word == "var" then some .varTok
  else if word == "fn" then some .fnTok
  else if word == "return" then some .returnTok
  else if word == "if" then some .ifTok
  else if word == "else" then some .elseTok
  else if word == "while" then some .whileTok
  else if word == "for" then some .forTok
  else if word == "in" then some .inTok
  else if word == "true" then some .trueTok
  else if word == "false" then some .falseTok
  else if word == "print" then some .printTok
  else if word == "int" then some .intTok
  else if word == "int64" then some .int64Tok
  else if word == "float" then some .float64Tok
  else if word == "string" then some .string64Tok
  else if word == "bool" then some .boolTok
  else if word == "void" then some .voidTok
  else if word == "null" then some .nullTok
  else none

/-- The scanning loop of `Lexer::read_number`: consume digits, and a dot only
once and only when the character after it is a digit; return the consumed
prefix, whether a dot was consumed, and the rest. -/
def readNumAux : List Char → Bool → List Char × Bool × List Char
  | [], hasDot => ([], hasDot, [])
  | c :: cs, hasDot =>
    if c.isDigit then
      let (t, h, r) := readNumAux cs hasDot
      (c :: t, h, r)
    else if c = '.' ∧ hasDot = false ∧ (cs.head?.map Char.isDigit).getD false then
      let (t, h, r) := readNumAux cs true
      (c :: t, h, r)
    else ([], hasDot, c :: cs)

/-- `Lexer::read_number`: `Float` if a dot was consumed, else `Integer`. -/
def readNumber (cs : List Char) : Token × List Char :=
  let (consumed, hasDot, rest) := readNumAux cs false
  (⟨if hasDot then .float else .integer, String.mk consumed⟩, rest)

/-- `Lexer::read_identifier`: alphanumerics and underscores, then keyword
lookup. -/
def readIdentifier (cs : List Char) : Token × List Char :=
  let consumed := cs.takeWhile (fun c => c.isAlphanum || c == '_')
  let rest := cs.dropWhile (fun c => c.isAlphanum || c == '_')
  let word := String.mk consumed
  (⟨(getKeyword word).getD .identifier, word⟩, rest)

/-- The scanning loop of `Lexer::read_string` (after the opening quote):
stop before a closing quote, stepping over the character after a backslash;
escapes are kept verbatim in the value. -/
def readStringAux : List Char → List Char × List Char
  | [] => ([], [])
  | '"' :: rest => ([], '"' :: rest)
  | '\\' :: c :: rest =>
    let (t, r) := readStringAux rest
    ('\\' :: c :: t, r)
  | '\\' :: [] => (['\\'], [])
  | c :: rest =>
    let (t, r) := readStringAux rest
    (c :: t, r)

/-- `Lexer::read_string`: skip the opening quote, scan, skip the closing
quote. -/
def readString (cs : List Char) : Token × List Char :=
  let (content, rest) := readStringAux cs.tail
  (⟨.string, String.mk content⟩, rest.tail)

/-- Whitespace-and-comment skipping: the `loop` at the top of
`Lexer::next_token` (`skip_whitespace`, then `skip_comment` and repeat while
a `//` comment follows).  `fuel` bounds the loop iterations of the model. -/
def skipWsComments : Nat → List Char → List Char
  | 0, cs => cs
  | fuel + 1, cs =>
    let cs₁ := cs.dropWhile Char.isWhitespace
    match cs₁ with
    | '/' :: '/' :: rest =>
      skipWsComments fuel ((rest.dropWhile (fun c => c ≠ '\n')).tail)
    | _ => cs₁

/-- `Lexer::next_token`, arm by arm, on the remaining input.  Two-character
operators advance inside the peek branch and once more after the match. -/
def nextToken (fuel : Nat) (cs₀ : List Char) : Token × List Char :=
  let cs := skipWsComments fuel cs₀
  match cs with
  | [] => (⟨.eof, ""⟩, [])
  | ch :: rest =>
    if ch.isDigit then readNumber cs
    else if ch.isAlpha || ch == '_' then readIdentifier cs
    else if ch == '"' then readString cs
    else
      match ch, rest with
      | '+', _ => (⟨.plus, "+"⟩, rest)
      | '-', _ => (⟨.minus, "-"⟩, rest)
      | '*', _ => (⟨.star, "*"⟩, rest)
      | '/', _ => (⟨.slash, "/"⟩, rest)
      | '%', _ => (⟨.percent, "%"⟩, rest)
      | '=', '=' :: rest₂ => (⟨.equalEqual, "=="⟩, rest₂)
      | '=', _ => (⟨.equal, "="⟩, rest)
      | '!', '=' :: rest₂ => (⟨.bangEqual, "!="⟩, rest₂)
      | '!', _ => (⟨.bang, "!"⟩, rest)
      | '<', '=' :: rest₂ => (⟨.lessEqual, "<="⟩, rest₂)
      | '<', _ => (⟨.less, "<"⟩, rest)
      | '>', '=' :: rest₂ => (⟨.greaterEqual, ">="⟩, rest₂)
      | '>', _ => (⟨.greater, ">"⟩, rest)
      | '&', '&' :: rest₂ => (⟨.and, "&&"⟩, rest₂)
      | '&', _ => (⟨.unknown, "&"⟩, rest)
      | '|', '|' :: rest₂ => (⟨.or, "||"⟩, rest₂)
      | '|', _ => (⟨.unknown, "|"⟩, rest)
      | '(', _ => (⟨.leftParen, "("⟩, rest)
      | ')', _ => (⟨.rightParen, ")"⟩, rest)
      | '{', _ => (⟨.leftBrace, "\x7b"⟩, rest)
      | '}', _ => (⟨.rightBrace, "\x7d"⟩, rest)
      | '[', _ => (⟨.leftBracket, "["⟩, rest)
      | ']', _ => (⟨.rightBracket, "]"⟩, rest)
      | ',', _ => (⟨.comma, ","⟩, rest)
      | ';', _ => (⟨.semicolon, ";"⟩, rest)
      | ':', _ => (⟨.colon, ":"⟩, rest)
      | '.', '.' :: rest₂ => (⟨.dotDot, ".."⟩, rest₂)
      | '.', _ => (⟨.dot, "."⟩, rest)
      | c, _ => (⟨.unknown, String.mk [c]⟩, rest)

/-- `Lexer::tokenize`: collect tokens until (and including) `EOF`. -/
def tokenize : Nat → List Char → List Token
  | 0, _ => []
  | fuel + 1, cs =>
    let (tok, rest) := nextToken (fuel + 1) cs
    if tok.tokenType = .eof then [tok]
    else tok :: tokenize fuel rest

end Lex

/-! ## Type checker (`src/type_checker/mod.rs`)

The type checker belongs to the richer crate revision: it matches
`Type::Named`, `Type::Struct` and statement forms absent from
`src/ast/mod.rs`.  `TC.TTy` reconstructs that revision of `Type` from the
checker's own pattern matches and the spec's data model (`Struct` fields are
flattened to name/type pairs). -/

namespace TC

/-- `Type` of the richer AST revision, as matched by `type_checker/mod.rs`. -/
inductive TTy where
  | int | float | string | bool | char | void | null | unknown
  | array (elem : TTy)
  | function (params : List TTy) (returnType : TTy)
  | struct (name : String) (fields : List (String × TTy))
  | named (name : String)

/-- `Symbol` from `type_checker/mod.rs`. -/
structure Symbol where
  symbolType : TTy
  isMutable : Bool

/-- `SymbolTable`: scope stack, head innermost (the last element of the Rust
`Vec`), each scope an association list modelling the `HashMap`. -/
def SymbolTable : Type := List (List (String × Symbol))

/-- `SymbolTable::new`. -/
def tableNew : SymbolTable := [[]]

/-- `SymbolTable::define`: insert into the innermost scope. -/
def tableDefine (tbl : SymbolTable) (name : String) (sym : Symbol) :
    SymbolTable :=
  match tbl with
  | [] => []
  | scope :: rest => ((name, sym) :: scope) :: rest

/-- `SymbolTable::get`: innermost scope first. -/
def tableGet : SymbolTable → String → Option Symbol
  | [], _ => none
  | scope :: rest, name =>
    match (scope.find? (fun p => p.1 == name)).map (·.2) with
    | some sym => some sym
    | none => tableGet rest name

mutual

/-- `TypeChecker::resolve_type` with an explicit recursion budget: the source
recurses unconditionally on the binding of a `Named` type (and structurally
elsewhere) with no visited set or depth bound, so the embedding spends one
unit of `fuel` per call and returns `none` exactly when the source would
still be recursing after `fuel` nested calls. -/
def resolveType : Nat → SymbolTable → TTy → Option TTy
  | 0, _, _ => none
  | fuel + 1, tbl, t =>
    match t with
    | .named name =>
      match tableGet tbl name with
      | some symbol => resolveType fuel tbl symbol.symbolType
      | none => some t
    | .array elem => (resolveType fuel tbl elem).map .array
    | .function params returnType =>
      match resolveTypeList fuel tbl params with
      | some params₁ =>
        (resolveType fuel tbl returnType).map (.function params₁)
      | none => none
    | .struct name fields =>
      (resolveFields fuel tbl fields).map (.struct name)
    | other => some other

/-- Elementwise resolution of function parameter lists. -/
def resolveTypeList : Nat → SymbolTable → List TTy → Option (List TTy)
  | 0, _, _ => none
  | _ + 1, _, [] => some []
  | fuel + 1, tbl, t :: rest =>
    match resolveType fuel tbl t with
    | some t₁ => (resolveTypeList fuel tbl rest).map (t₁ :: ·)
    | none => none

/-- Elementwise resolution of struct field types. -/
def resolveFields : Nat → SymbolTable → List (String × TTy) →
    Option (List (String × TTy))
  | 0, _, _ => none
  | _ + 1, _, [] => some []
  | fuel + 1, tbl, (n, t) :: rest =>
    match resolveType fuel tbl t with
    | some t₁ => (resolveFields fuel tbl rest).map ((n, t₁) :: ·)
    | none => none

end

/-- The `Stmt::TypeAlias` arm of `check_statement`: bind the alias name
directly to its target type (immutably). -/
def bindTypeAlias (tbl : SymbolTable) (name : String) (target : TTy) :
    SymbolTable :=
  tableDefine tbl name ⟨target, false⟩

/-- The symbol table after checking `type A = A;` from a fresh checker. -/
def selfAliasTable : SymbolTable := bindTypeAlias tableNew "A" (.named "A")

end TC

/-! ## Bytecode codec (`src/bytecode/serializer.rs`)

The serializer belongs to the richer crate revision: it handles
`Value::Char`, `Value::Struct` and the `NewStruct`/`FieldGet`/`FieldSet`
opcodes.  The namespace therefore carries its own value and opcode types
mirroring that revision.  Byte-level modelling: a byte is a `Nat` (< 256 in
every produced encoding); `String` and `char` payloads are represented by
their UTF-8 byte sequences, so Rust's `String::from_utf8` /
`chars().next()` reconstruction of freshly serialized text is the identity;
`f64` payloads are represented by their 8-byte little-endian bit pattern as
a `Nat < 2^64`; `usize → u32` casts keep the low 32 bits, and `u32 → usize`
reads are exact. -/

namespace Ser

/-- `OpCode` as the serializer revision defines it (the `bytecode/mod.rs`
set plus `NewStruct`/`FieldGet`/`FieldSet`). -/
inductive SOp where
  | loadConst (idx : Nat)
  | loadNull
  | loadLocal (slot : Nat)
  | storeLocal (slot : Nat)
  | loadGlobal (idx : Nat)
  | storeGlobal (idx : Nat)
  | add | subtract | multiply | divide | modulo | negate
  | equal | notEqual | greater | greaterEqual | less | lessEqual
  | not | and | or
  | jump (offset : Nat)
  | jumpIfFalse (offset : Nat)
  | jumpIfTrue (offset : Nat)
  | loop (offset : Nat)
  | call (argCount : Nat)
  | ret
  | newArray (size : Nat)
  | arrayGet | arraySet | arrayLen
  | newStruct (fieldCount : Nat)
  | fieldGet (idx : Nat)
  | fieldSet (idx : Nat)
  | pop | dup
  | print | halt
  deriving DecidableEq, Repr

/-- `Value` as the serializer revision defines it, with the nested
`Function` (name, arity, locals_count, chunk) flattened into the `func`
constructor in write order. -/
inductive SValue where
  | integer (i : Int)
  | float (bits : Nat)
  | str (bytes : List Nat)
  | boolean (b : Bool)
  | char (bytes : List Nat)
  | array (elems : List SValue)
  | func (name : List Nat) (arity : Nat) (localsCount : Nat)
      (constants : List SValue) (code : List SOp) (lines : List Nat)
  | null
  | strukt (name : List Nat) (fields : List SValue)

/-- `Chunk` of the serializer revision. -/
structure SChunk where
  code : List SOp
  constants : List SValue
  lines : List Nat

/-- The file magic `"ZERO"`. -/
def magic : List Nat := [0x5A, 0x45, 0x52, 0x4F]

/-- `u16::to_le_bytes`. -/
def u16le (n : Nat) : List Nat := [n % 256, n / 256 % 256]

/-- `u32::to_le_bytes` (of `x as u32`, hence the modulus). -/
def u32le (n : Nat) : List Nat :=
  [n % 256, n / 256 % 256, n / 256 ^ 2 % 256, n / 256 ^ 3 % 256]

/-- `i64::to_le_bytes`: the 8 little-endian bytes of the two's-complement
representation. -/
def i64le (x : Int) : List Nat :=
  let m := (x.emod (2 ^ 64)).toNat
  [m % 256, m / 256 % 256, m / 256 ^ 2 % 256, m / 256 ^ 3 % 256,
   m / 256 ^ 4 % 256, m / 256 ^ 5 % 256, m / 256 ^ 6 % 256, m / 256 ^ 7 % 256]

/-- `f64::to_le_bytes` on the bit-pattern model. -/
def f64le (bits : Nat) : List Nat :=
  let m := bits % 2 ^ 64
  [m % 256, m / 256 % 256, m / 256 ^ 2 % 256, m / 256 ^ 3 % 256,
   m / 256 ^ 4 % 256, m / 256 ^ 5 % 256, m / 256 ^ 6 % 256, m / 256 ^ 7 % 256]

/-- `BytecodeSerializer::write_opcode`: tag byte plus `u32` LE operands. -/
def encodeOp : SOp → List Nat
  | .loadConst idx => 0x00 :: u32le idx
  | .loadNull => [0x01]
  | .loadLocal slot => 0x02 :: u32le slot
  | .storeLocal slot => 0x03 :: u32le slot
  | .loadGlobal idx => 0x04 :: u32le idx
  | .storeGlobal idx => 0x05 :: u32le idx
  | .add => [0x10]
  | .subtract => [0x11]
  | .multiply => [0x12]
  | .divide => [0x13]
  | .modulo => [0x14]
  | .negate => [0x15]
  | .equal => [0x20]
  | .notEqual => [0x21]
  | .greater => [0x22]
  | .greaterEqual => [0x23]
  | .less => [0x24]
  | .lessEqual => [0x25]
  | .not => [0x30]
  | .and => [0x31]
  | .or => [0x32]
  | .jump offset => 0x40 :: u32le offset
  | .jumpIfFalse offset => 0x41 :: u32le offset
  | .jumpIfTrue offset => 0x42 :: u32le offset
  | .loop offset => 0x43 :: u32le offset
  | .call argc => 0x50 :: u32le argc
  | .ret => [0x51]
  | .newArray size => 0x60 :: u32le size
  | .arrayGet => [0x61]
  | .arraySet => [0x62]
  | .arrayLen => [0x63]
  | .newStruct n => 0x64 :: u32le n
  | .fieldGet idx => 0x65 :: u32le idx
  | .fieldSet idx => 0x66 :: u32le idx
  | .pop => [0x70]
  | .dup => [0x71]
  | .print => [0xF0]
  | .halt => [0xFF]

/-- Concatenated opcode encodings. -/
def encodeOps : List SOp → List Nat
  | [] => []
  | op :: rest => encodeOp op ++ encodeOps rest

/-- Concatenated `u32` LE line numbers (`line as u32`). -/
def encodeLines : List Nat → List Nat
  | [] => []
  | l :: rest => u32le l ++ encodeLines rest

mutual

/-- `BytecodeSerializer::write_value`: tag byte plus payload. -/
def encodeValue : SValue → List Nat
  | .integer i => 0x01 :: i64le i
  | .float bits => 0x02 :: f64le bits
  | .str bytes => 0x03 :: (u32le bytes.length ++ bytes)
  | .boolean b => [0x04, if b then 1 else 0]
  | .char bytes => 0x09 :: ((bytes.length % 256) :: bytes)
  | .array elems => 0x05 :: (u32le elems.length ++ encodeValues elems)
  | .func name arity localsCount constants code lines =>
      0x06 :: (u32le name.length ++ name ++ u32le arity ++ u32le localsCount
        ++ u32le constants.length ++ u32le code.length
        ++ encodeValues constants ++ encodeOps code ++ encodeLines lines)
  | .null => [0x07]
  | .strukt name fields =>
      0x08 :: (u32le name.length ++ name ++ u32le fields.length
        ++ encodeValues fields)

/-- Concatenated encodings of a constant list. -/
def encodeValues : List SValue → List Nat
  | [] => []
  | v :: rest => encodeValue v ++ encodeValues rest

end

/-- `BytecodeSerializer::serialize`: header, then constants, code, lines. -/
def serialize (c : SChunk) : List Nat :=
  magic ++ u16le 0 ++ u16le 1
    ++ u32le c.constants.length ++ u32le c.code.length
    ++ encodeValues c.constants ++ encodeOps c.code ++ encodeLines c.lines

/-- `read_exact` into a `k`-byte buffer. -/
def readBytes : Nat → List Nat → Option (List Nat × List Nat)
  | 0, input => some ([], input)
  | _ + 1, [] => none
  | k + 1, b :: input =>
    match readBytes k input with
    | some (bs, rest) => some (b :: bs, rest)
    | none => none

/-- `BytecodeDeserializer::read_u32`. -/
def readU32 (input : List Nat) : Option (Nat × List Nat) :=
  match readBytes 4 input with
  | some ([b0, b1, b2, b3], rest) =>
      some (b0 + 256 * b1 + 256 ^ 2 * b2 + 256 ^ 3 * b3, rest)
  | _ => none

/-- `i64::from_le_bytes` composed with `read_exact`. -/
def readI64 (input : List Nat) : Option (Int × List Nat) :=
  match readBytes 8 input with
  | some ([b0, b1, b2, b3, b4, b5, b6, b7], rest) =>
      let m : Nat := b0 + 256 * b1 + 256 ^ 2 * b2 + 256 ^ 3 * b3
        + 256 ^ 4 * b4 + 256 ^ 5 * b5 + 256 ^ 6 * b6 + 256 ^ 7 * b7
      some (if m < 2 ^ 63 then (m : Int) else (m : Int) - 2 ^ 64, rest)
  | _ => none

/-- `f64::from_le_bytes` on the bit-pattern model. -/
def readF64 (input : List Nat) : Option (Nat × List Nat) :=
  match readBytes 8 input with
  | some ([b0, b1, b2, b3, b4, b5, b6, b7], rest) =>
      some (b0 + 256 * b1 + 256 ^ 2 * b2 + 256 ^ 3 * b3
        + 256 ^ 4 * b4 + 256 ^ 5 * b5 + 256 ^ 6 * b6 + 256 ^ 7 * b7, rest)
  | _ => none

/-- `BytecodeDeserializer::read_opcode` (the `match` on the opcode byte as an
if-chain; unknown bytes are `InvalidData` errors). -/
def decodeOp (input : List Nat) : Option (SOp × List Nat) :=
  match input with
  | [] => none
  | b :: input =>
    if b = 0x00 then (readU32 input).map (fun p => (SOp.loadConst p.1, p.2))
    else if b = 0x01 then some (.loadNull, input)
    else if b = 0x02 then (readU32 input).map (fun p => (SOp.loadLocal p.1, p.2))
    else if b = 0x03 then (readU32 input).map (fun p => (SOp.storeLocal p.1, p.2))
    else if b = 0x04 then (readU32 input).map (fun p => (SOp.loadGlobal p.1, p.2))
    else if b = 0x05 then (readU32 input).map (fun p => (SOp.storeGlobal p.1, p.2))
    else if b = 0x10 then some (.add, input)
    else if b = 0x11 then some (.subtract, input)
    else if b = 0x12 then some (.multiply, input)
    else if b = 0x13 then some (.divide, input)
    else if b = 0x14 then some (.modulo, input)
    else if b = 0x15 then some (.negate, input)
    else if b = 0x20 then some (.equal, input)
    else if b = 0x21 then some (.notEqual, input)
    else if b = 0x22 then some (.greater, input)
    else if b = 0x23 then some (.greaterEqual, input)
    else if b = 0x24 then some (.less, input)
    else if b = 0x25 then some (.lessEqual, input)
    else if b = 0x30 then some (.not, input)
    else if b = 0x31 then some (.and, input)
    else if b = 0x32 then some (.or, input)
    else if b = 0x40 then (readU32 input).map (fun p => (SOp.jump p.1, p.2))
    else if b = 0x41 then (readU32 input).map (fun p => (SOp.jumpIfFalse p.1, p.2))
    else if b = 0x42 then (readU32 input).map (fun p => (SOp.jumpIfTrue p.1, p.2))
    else if b = 0x43 then (readU32 input).map (fun p => (SOp.loop p.1, p.2))
    else if b = 0x50 then (readU32 input).map (fun p => (SOp.call p.1, p.2))
    else if b = 0x51 then some (.ret, input)
    else if b = 0x60 then (readU32 input).map (fun p => (SOp.newArray p.1, p.2))
    else if b = 0x61 then some (.arrayGet, input)
    else if b = 0x62 then some (.arraySet, input)
    else if b = 0x63 then some (.arrayLen, input)
    else if b = 0x64 then (readU32 input).map (fun p => (SOp.newStruct p.1, p.2))
    else if b = 0x65 then (readU32 input).map (fun p => (SOp.fieldGet p.1, p.2))
    else if b = 0x66 then (readU32 input).map (fun p => (SOp.fieldSet p.1, p.2))
    else if b = 0x70 then some (.pop, input)
    else if b = 0x71 then some (.dup, input)
    else if b = 0xF0 then some (.print, input)
    else if b = 0xFF then some (.halt, input)
    else none

/-- The opcode-reading loop (`for _ in 0..code_count`). -/
def decodeOps : Nat → List Nat → Option (List SOp × List Nat)
  | 0, input => some ([], input)
  | n + 1, input =>
    match decodeOp input with
    | some (op, rest) =>
      match decodeOps n rest with
      | some (ops, rest₁) => some (op :: ops, rest₁)
      | none => none
    | none => none

/-- The line-number-reading loop (`for _ in 0..code_count`). -/
def decodeLines : Nat → List Nat → Option (List Nat × List Nat)
  | 0, input => some ([], input)
  | n + 1, input =>
    match readU32 input with
    | some (l, rest) =>
      match decodeLines n rest with
      | some (ls, rest₁) => some (l :: ls, rest₁)
      | none => none
    | none => none

/-- The constant-reading loop (`for _ in 0..n`), parameterized by the value
decoder it invokes. -/
def decodeValuesAux (dec : List Nat → Option (SValue × List Nat)) :
    Nat → List Nat → Option (List SValue × List Nat)
  | 0, input => some ([], input)
  | n + 1, input =>
    match dec input with
    | some (v, rest) =>
      match decodeValuesAux dec n rest with
      | some (vs, rest₁) => some (v :: vs, rest₁)
      | none => none
    | none => none

/-- `BytecodeDeserializer::read_value` (the tag `match` as an if-chain).
`fuel` bounds the value-nesting recursion depth of the embedding; the source
recursion is bounded by the same depth of the encoded data. -/
def decodeValue : Nat → List Nat → Option (SValue × List Nat)
  | 0, _ => none
  | fuel + 1, input =>
    match input with
    | [] => none
    | tag :: input =>
      if tag = 0x01 then (readI64 input).map (fun p => (SValue.integer p.1, p.2))
      else if tag = 0x02 then (readF64 input).map (fun p => (SValue.float p.1, p.2))
      else if tag = 0x03 then
        match readU32 input with
        | some (len, rest) =>
          match readBytes len rest with
          | some (bytes, rest₁) => some (.str bytes, rest₁)
          | none => none
        | none => none
      else if tag = 0x04 then
        match input with
        | byte :: rest => some (.boolean (byte ≠ 0), rest)
        | [] => none
      else if tag = 0x09 then
        match input with
        | len :: rest =>
          match readBytes len rest with
          | some (bytes, rest₁) => some (.char bytes, rest₁)
          | none => none
        | [] => none
      else if tag = 0x05 then
        match readU32 input with
        | some (len, rest) =>
          match decodeValuesAux (fun inp => decodeValue fuel inp) len rest with
          | some (elems, rest₁) => some (.array elems, rest₁)
          | none => none
        | none => none
      else if tag = 0x06 then
        match readU32 input with
        | some (nameLen, r₁) =>
          match readBytes nameLen r₁ with
          | some (name, r₂) =>
            match readU32 r₂ with
            | some (arity, r₃) =>
              match readU32 r₃ with
              | some (localsCount, r₄) =>
                match readU32 r₄ with
                | some (constantsCount, r₅) =>
                  match readU32 r₅ with
                  | some (codeCount, r₆) =>
                    match decodeValuesAux (fun inp => decodeValue fuel inp)
                        constantsCount r₆ with
                    | some (constants, r₇) =>
                      match decodeOps codeCount r₇ with
                      | some (code, r₈) =>
                        match decodeLines codeCount r₈ with
                        | some (lines, r₉) =>
                          some (.func name arity localsCount constants code
                            lines, r₉)
                        | none => none
                      | none => none
                    | none => none
                  | none => none
                | none => none
              | none => none
            | none => none
          | none => none
        | none => none
      else if tag = 0x07 then some (.null, input)
      else if tag = 0x08 then
        match readU32 input with
        | some (nameLen, r₁) =>
          match readBytes nameLen r₁ with
          | some (name, r₂) =>
            match readU32 r₂ with
            | some (fieldCount, r₃) =>
              match decodeValuesAux (fun inp => decodeValue fuel inp)
                  fieldCount r₃ with
              | some (fields, r₄) => some (.strukt name fields, r₄)
              | none => none
            | none => none
          | none => none
        | none => none
      else none

/-- `BytecodeDeserializer::deserialize` with an explicit nesting budget:
header validation (magic, major version 0; the minor version is read but not
checked), then counts, constants, code and lines. -/
def deserializeFuel (fuel : Nat) (input : List Nat) : Option SChunk :=
  match readBytes 4 input with
  | some (m, r₁) =>
    if m ≠ magic then none
    else
      match readBytes 2 r₁ with
      | some (vmaj, r₂) =>
        match readBytes 2 r₂ with
        | none => none
        | some (_, r₃) =>
          if vmaj ≠ u16le 0 then none
          else
            match readU32 r₃ with
            | some (constantsCount, r₄) =>
              match readU32 r₄ with
              | some (codeCount, r₅) =>
                match decodeValuesAux (fun inp => decodeValue fuel inp)
                    constantsCount r₅ with
                | some (constants, r₆) =>
                  match decodeOps codeCount r₆ with
                  | some (code, r₇) =>
                    match decodeLines codeCount r₇ with
                    | some (lines, _) => some ⟨code, constants, lines⟩
                    | none => none
                  | none => none
                | none => none
              | none => none
            | none => none
      | none => none
  | none => none

/-- `BytecodeDeserializer::deserialize`: the nesting depth of any value a
byte stream encodes is at most the stream length, so the stream length is a
sufficient budget and the embedding is total in the input alone. -/
def deserialize (input : List Nat) : Option SChunk :=
  deserializeFuel input.length input

/-- Well-formedness of an opcode for the codec: operands fit in `u32` (the
claim's "constant-pool indices, jump targets … fit in u32"). -/
def wfOp : SOp → Prop
  | .loadConst idx => idx < 2 ^ 32
  | .loadLocal slot => slot < 2 ^ 32
  | .storeLocal slot => slot < 2 ^ 32
  | .loadGlobal idx => idx < 2 ^ 32
  | .storeGlobal idx => idx < 2 ^ 32
  | .jump offset => offset < 2 ^ 32
  | .jumpIfFalse offset => offset < 2 ^ 32
  | .jumpIfTrue offset => offset < 2 ^ 32
  | .loop offset => offset < 2 ^ 32
  | .call argc => argc < 2 ^ 32
  | .newArray size => size < 2 ^ 32
  | .newStruct n => n < 2 ^ 32
  | .fieldGet idx => idx < 2 ^ 32
  | .fieldSet idx => idx < 2 ^ 32
  | _ => True

mutual

/-- Well-formedness of a value for the codec: machine-representable
payloads, lengths and counts that fit the widths the format writes, a line
table as long as the code, and (for `char`) the byte sequence of one Rust
`char`. -/
def wfValue : SValue → Prop
  | .integer i => fitsI64 i
  | .float bits => bits < 2 ^ 64
  | .str bytes => bytes.length < 2 ^ 32 ∧ ∀ b ∈ bytes, b < 256
  | .boolean _ => True
  | .char bytes =>
      (1 ≤ bytes.length ∧ bytes.length ≤ 4) ∧ ∀ b ∈ bytes, b < 256
  | .array elems => elems.length < 2 ^ 32 ∧ wfValues elems
  | .func name _arity localsCount constants code lines =>
      (name.length < 2 ^ 32 ∧ ∀ b ∈ name, b < 256) ∧
      _arity < 2 ^ 32 ∧ localsCount < 2 ^ 32 ∧
      constants.length < 2 ^ 32 ∧ code.length < 2 ^ 32 ∧
      lines.length = code.length ∧ (∀ l ∈ lines, l < 2 ^ 32) ∧
      wfValues constants ∧ ∀ op ∈ code, wfOp op
  | .null => True
  | .strukt name fields =>
      (name.length < 2 ^ 32 ∧ ∀ b ∈ name, b < 256) ∧
      fields.length < 2 ^ 32 ∧ wfValues fields

/-- All values of a list are well formed. -/
def wfValues : List SValue → Prop
  | [] => True
  | v :: rest => wfValue v ∧ wfValues rest

end

/-- Well-formedness of a chunk for the codec (the claim's hypotheses). -/
def wfChunk (c : SChunk) : Prop :=
  c.constants.length < 2 ^ 32 ∧ c.code.length < 2 ^ 32 ∧
  c.lines.length = c.code.length ∧ (∀ l ∈ c.lines, l < 2 ^ 32) ∧
  wfValues c.constants ∧ ∀ op ∈ c.code, wfOp op

mutual

/-- Nesting depth of a value (the recursion depth `read_value` needs). -/
def depthV : SValue → Nat
  | .array elems => 1 + depthVs elems
  | .func _ _ _ constants _ _ => 1 + depthVs constants
  | .strukt _ fields => 1 + depthVs fields
  | _ => 1

/-- Maximum nesting depth over a list of values. -/
def depthVs : List SValue → Nat
  | [] => 0
  | v :: rest => max (depthV v) (depthVs rest)

end

end Ser

/-! ## Claim-level auxiliary definitions -/

/-- A VM state about to execute `code[ip]` in a single `<script>` frame with
stack offset 0 (the configuration `VM::execute` creates), with arbitrary
stack, constants, globals and prior output. -/
def execState (code : List OpCode) (constants : List Value) (ip : Nat)
    (stack : List Value) (g : List (String × Value)) (out : List String) :
    VMState :=
  { stack := stack
    globals := g
    frames := [⟨⟨"<script>", 0, ⟨code, constants, List.replicate code.length 0⟩, 0⟩, ip, 0⟩]
    currentFrame := 0
    output := out }

/-- The printed output of an interpreter outcome that finished normally. -/
def Interp.IOut.outputOf : Interp.IOut α → Option (List String)
  | .ok _ _ out => some out
  | _ => none

/-- AST of `let a = [1, 2, 3]; a[1] = 99; print(a[1]); print(a[-1]);` (the
parse is fixed by the grammar: `-1` is unary negation of the literal `1`). -/
def c1prog : Program := ⟨[
  .varDeclaration "a" false none
    (some (.array [.integer 1, .integer 2, .integer 3])),
  .expression (.indexAssign (.identifier "a") (.integer 1) (.integer 99)),
  .print (.index (.identifier "a") (.integer 1)),
  .print (.index (.identifier "a") (.unary .negate (.integer 1)))]⟩

/-- AST of `let a = [1, 2, 3]; a[1] = 99;`: a program made of two whole
statements, starting and ending at top level with an empty operand stack if
the statement-balance invariant holds. -/
def c2prog : Program := ⟨[
  .varDeclaration "a" false none
    (some (.array [.integer 1, .integer 2, .integer 3])),
  .expression (.indexAssign (.identifier "a") (.integer 1) (.integer 99))]⟩

/-- AST of `let a = [1, 2]; print(a);` (accepted by the pipeline: the array
literal has type `[int]` and `print` takes any type). -/
def c7prog : Program := ⟨[
  .varDeclaration "a" false none (some (.array [.integer 1, .integer 2])),
  .print (.identifier "a")]⟩

/-- A chunk with every payload kind the codec handles, including a nested
`Function` constant (whose own pool holds an array, a char and ints), used to
witness the round-trip theorem. -/
def c6chunk : Ser.SChunk :=
  ⟨[.loadConst 0, .call 1, .jump 3, .print, .halt],
   [.integer (-5), .float 4638387860618067575, .str [104, 105], .boolean true,
    .func [102] 1 2
      [.integer 7, .array [.null, .boolean false], .char [226, 130, 172]]
      [.loadLocal 0, .ret] [3, 4],
    .strukt [80] [.integer 1, .null]],
   [1, 1, 1, 2, 2]⟩

/-! ## Theorems -/

/-- Auxiliary: `read_number`'s scanning loop stops at a dot that is not
followed by a digit, leaving the dot unconsumed. -/
theorem readNumAux_stops_at_bare_dot (ds : List Char) (c : Char)
    (rest : List Char) (hds : ∀ d ∈ ds, d.isDigit) (hc : ¬c.isDigit) :
    Lex.readNumAux (ds ++ '.' :: c :: rest) false =
      (ds, false, '.' :: c :: rest) := by
  induction ds with
  | nil => simp [Lex.readNumAux, hc]
  | cons d ds ih =>
    have hd : d.isDigit := hds d (List.mem_cons_self d ds)
    have ih₁ := ih (fun d hm => hds d (List.mem_cons_of_mem _ hm))
    simp [Lex.readNumAux, hd, ih₁]

/-- C8.  `Lexer::read_number` takes a fractional part only when the dot is
immediately followed by a decimal digit: a run of digits followed by `.` and
a non-digit yields an `Integer` token with the dot left in the input, and the
concrete input `1..5` tokenizes as `Integer("1")`, `DotDot`, `Integer("5")`
(plus the final `EOF`), not as a float. -/
theorem c8_dot_needs_digit_after :
    (∀ (ds : List Char) (c : Char) (rest : List Char),
      (∀ d ∈ ds, d.isDigit) → ¬c.isDigit →
      Lex.readNumber (ds ++ '.' :: c :: rest) =
        (⟨.integer, String.mk ds⟩, '.' :: c :: rest)) ∧
    Lex.tokenize 16 "1..5".toList =
      [⟨.integer, "1"⟩, ⟨.dotDot, ".."⟩, ⟨.integer, "5"⟩, ⟨.eof, ""⟩] := by
  constructor
  · intro ds c rest hds hc
    simp [Lex.readNumber, readNumAux_stops_at_bare_dot ds c rest hds hc]
  · rfl

/-- C8 witness: the general part of `c8_dot_needs_digit_after` applied to the
digit run `"1"`, the non-digit `'.'` and remaining input `"5"`. -/
theorem c8_witness :
    Lex.readNumber ('1' :: '.' :: '.' :: '5' :: []) =
      (⟨.integer, "1"⟩, '.' :: '.' :: '5' :: []) :=
  c8_dot_needs_digit_after.1 ['1'] '.' ['5'] (by decide) (by decide)

/-- C5.  After `type A = A;` binds `A` to `Named("A")`, the source
`resolve_type` recurses on that binding with no visited set or depth bound:
the fuel-indexed embedding fails to produce a result for every recursion
budget, i.e. the source function does not terminate (the claim says it must
terminate and report `CannotInferType`). -/
theorem c5_resolve_type_self_alias_diverges :
    TC.tableGet TC.selfAliasTable "A" = some ⟨.named "A", false⟩ ∧
    ∀ fuel, TC.resolveType fuel TC.selfAliasTable (.named "A") = none := by
  refine ⟨rfl, fun fuel => ?_⟩
  induction fuel with
  | zero => rfl
  | succ n ih =>
    simpa [TC.resolveType, TC.tableGet, TC.selfAliasTable, TC.bindTypeAlias,
      TC.tableDefine, TC.tableNew] using ih

set_option maxRecDepth 8000 in
/-- C1.  Compiling `let a = [1, 2, 3]; a[1] = 99; print(a[1]); print(a[-1]);`
and running it does NOT print `99` and `3`: `ArraySet` pushes the modified
array and then the assigned value, so the compiler's store-back writes the
integer `99` into the variable `a`; the first `print(a[1])` then aborts with
`TypeError "Can only index arrays"` after printing nothing. -/
theorem c1_index_assign_aborts :
    (compileAndRun c1prog 8 100).map (fun r => (r.error?, r.output)) =
      some (some (.typeError "Can only index arrays"), []) := rfl

set_option maxRecDepth 8000 in
/-- C2.  The statement-balance invariant fails: running the compiled
`let a = [1, 2, 3]; a[1] = 99;` (two whole statements from an empty stack)
halts with the modified array still on the operand stack — height 1, not 0 —
because `ArraySet` pushes two values while the `IndexAssign` lowering
accounts for one. -/
theorem c2_stack_height_not_restored :
    (compileAndRun c2prog 8 100).map (fun r => (r.isHalted, r.stack)) =
      some (true, [.array [.integer 1, .integer 99, .integer 3]]) := rfl

set_option maxRecDepth 8000 in
/-- C7.  Print-equivalence of the two execution modes fails on the
pipeline-accepted, terminating program `let a = [1, 2]; print(a);`: the
tree-walking interpreter's placeholder array support prints `Array[2]` while
the VM prints `[1, 2]`. -/
theorem c7_interpreter_vm_print_divergence :
    (Interp.interpret 50 c7prog).outputOf = some ["Array[2]"] ∧
    (compileAndRun c7prog 8 100).map RunResult.output = some ["[1, 2]"] ∧
    (Interp.interpret 50 c7prog).outputOf ≠
      (compileAndRun c7prog 8 100).map RunResult.output := by
  refine ⟨rfl, rfl, ?_⟩
  intro h
  have h1 : (Interp.interpret 50 c7prog).outputOf = some ["Array[2]"] := rfl
  have h2 : (compileAndRun c7prog 8 100).map RunResult.output =
      some ["[1, 2]"] := rfl
  rw [h1, h2] at h
  simp at h

/-- Auxiliary: splitting the two top stack values. -/
theorem stack_two_split (rest : List Value) (a b : Value) :
    rest ++ [a, b] = (rest ++ [a]) ++ [b] := by simp

set_option maxRecDepth 4000 in
/-- Auxiliary: `comparison_op` on a stack ending in two values whose
conversion succeeds pushes the boolean comparison of the converted
operands. -/
theorem comparisonOp_eval (s : VMState) (f : ℚ → ℚ → Bool)
    (rest : List Value) (a b : Value) (x y : ℚ)
    (hs : s.stack = rest ++ [a, b]) (hxy : comparisonOperands a b = some (x, y))
    (hlen : rest.length + 2 ≤ 1024) :
    s.comparisonOp f = .next { s with stack := rest ++ [.boolean (f x y)] } := by
  have hlt : ¬ 1024 ≤ rest.length := by omega
  obtain ⟨stk, g, fr, cf, outp⟩ := s
  simp only at hs
  subst hs
  have e1 : (rest ++ [a, b]).getLast? = some b := by
    rw [stack_two_split]; exact List.getLast?_concat _
  have e2 : (rest ++ [a, b]).dropLast = rest ++ [a] := by
    rw [stack_two_split]; exact List.dropLast_concat
  simp only [VMState.comparisonOp, VMState.popV, VMState.push, e1, e2,
    List.getLast?_concat, List.dropLast_concat, hxy, List.length_append,
    List.length_cons, List.length_nil]
  simp [hlt]

set_option maxRecDepth 4000 in
/-- Auxiliary: `binary_op` with a division/modulo closure on a stack ending
in two operands: push on success, error or panic otherwise (operands
consumed). -/
theorem binaryOpArith_eval (s : VMState) (op : Value → Value → ArithResult)
    (rest : List Value) (a b : Value)
    (hs : s.stack = rest ++ [a, b]) (hlen : rest.length + 2 ≤ 1024) :
    s.binaryOpArith op =
      match op a b with
      | .ok v => .next { s with stack := rest ++ [v] }
      | .err e => .err e { s with stack := rest }
      | .panic => .panic { s with stack := rest } := by
  have hlt : ¬ 1024 ≤ rest.length := by omega
  obtain ⟨stk, g, fr, cf, outp⟩ := s
  simp only at hs
  subst hs
  have e1 : (rest ++ [a, b]).getLast? = some b := by
    rw [stack_two_split]; exact List.getLast?_concat _
  have e2 : (rest ++ [a, b]).dropLast = rest ++ [a] := by
    rw [stack_two_split]; exact List.dropLast_concat
  cases hab : op a b with
  | ok v =>
    simp only [VMState.binaryOpArith, VMState.popV, VMState.push, e1, e2,
      List.getLast?_concat, List.dropLast_concat, hab, List.length_append,
      List.length_cons, List.length_nil]
    simp [hlt]
  | err e =>
    simp only [VMState.binaryOpArith, VMState.popV, e1, e2,
      List.getLast?_concat, List.dropLast_concat, hab]
  | panic =>
    simp only [VMState.binaryOpArith, VMState.popV, e1, e2,
      List.getLast?_concat, List.dropLast_concat, hab]

set_option maxRecDepth 4000 in
/-- Auxiliary: `step` on a single-frame state whose current instruction is
one of the four ordering opcodes pushes the boolean comparison of the
converted operands. -/
theorem step_comparison_generic (code : List OpCode) (consts : List Value)
    (ip : Nat) (rest : List Value) (a b : Value) (x y : ℚ)
    (g : List (String × Value)) (out : List String) (op : OpCode)
    (f : ℚ → ℚ → Bool)
    (hof : (op = .less ∧ f = fun u v => decide (u < v)) ∨
           (op = .lessEqual ∧ f = fun u v => decide (u ≤ v)) ∨
           (op = .greater ∧ f = fun u v => decide (u > v)) ∨
           (op = .greaterEqual ∧ f = fun u v => decide (u ≥ v)))
    (hcode : code.get? ip = some op)
    (hxy : comparisonOperands a b = some (x, y))
    (hlen : rest.length + 2 ≤ 1024) :
    step (execState code consts ip (rest ++ [a, b]) g out) =
      .next (execState code consts (ip + 1)
        (rest ++ [.boolean (f x y)]) g out) := by
  have hc : code[ip]? = some op := by
    rw [← List.get?_eq_getElem?]; exact hcode
  rcases hof with ⟨rfl, rfl⟩ | ⟨rfl, rfl⟩ | ⟨rfl, rfl⟩ | ⟨rfl, rfl⟩
  · have hstep : step (execState code consts ip (rest ++ [a, b]) g out) =
        (execState code consts (ip + 1) (rest ++ [a, b]) g out).comparisonOp
          (fun u v => decide (u < v)) := by
      simp [step, execState, hc, VMState.setIp, listModify]
    rw [hstep, comparisonOp_eval _ _ rest a b x y rfl hxy hlen]
    rfl
  · have hstep : step (execState code consts ip (rest ++ [a, b]) g out) =
        (execState code consts (ip + 1) (rest ++ [a, b]) g out).comparisonOp
          (fun u v => decide (u ≤ v)) := by
      simp [step, execState, hc, VMState.setIp, listModify]
    rw [hstep, comparisonOp_eval _ _ rest a b x y rfl hxy hlen]
    rfl
  · have hstep : step (execState code consts ip (rest ++ [a, b]) g out) =
        (execState code consts (ip + 1) (rest ++ [a, b]) g out).comparisonOp
          (fun u v => decide (u > v)) := by
      simp [step, execState, hc, VMState.setIp, listModify]
    rw [hstep, comparisonOp_eval _ _ rest a b x y rfl hxy hlen]
    rfl
  · have hstep : step (execState code consts ip (rest ++ [a, b]) g out) =
        (execState code consts (ip + 1) (rest ++ [a, b]) g out).comparisonOp
          (fun u v => decide (u ≥ v)) := by
      simp [step, execState, hc, VMState.setIp, listModify]
    rw [hstep, comparisonOp_eval _ _ rest a b x y rfl hxy hlen]
    rfl

/-- Auxiliary: `i64 as f64` is exact on magnitudes up to `2 ^ 53`. -/
theorem i64ToF64_exact (x : Int) (h : x.natAbs ≤ 2 ^ 53) : i64ToF64 x = x := by
  simp only [i64ToF64]
  rw [if_pos h]

set_option maxRecDepth 4000 in
/-- C9.  `Equal`/`NotEqual` compare structurally with no numeric promotion:
on operands `Integer n` and `Float x` they push `false` (resp. `true`) for
every `n` and `x`, while the ordering opcode `Less` on the same operands
promotes the integer to a float and compares numerically. -/
theorem c9_equal_structural_no_promotion :
    (∀ (code : List OpCode) (consts : List Value) (ip : Nat)
      (rest : List Value) (n : Int) (q : ℚ) (g : List (String × Value))
      (out : List String), code.get? ip = some .equal →
      rest.length + 2 ≤ 1024 →
      step (execState code consts ip (rest ++ [.integer n, .float q]) g out) =
        .next (execState code consts (ip + 1)
          (rest ++ [.boolean false]) g out)) ∧
    (∀ (code : List OpCode) (consts : List Value) (ip : Nat)
      (rest : List Value) (n : Int) (q : ℚ) (g : List (String × Value))
      (out : List String), code.get? ip = some .notEqual →
      rest.length + 2 ≤ 1024 →
      step (execState code consts ip (rest ++ [.integer n, .float q]) g out) =
        .next (execState code consts (ip + 1)
          (rest ++ [.boolean true]) g out)) ∧
    (∀ (code : List OpCode) (consts : List Value) (ip : Nat)
      (rest : List Value) (n : Int) (q : ℚ) (g : List (String × Value))
      (out : List String), code.get? ip = some .less →
      rest.length + 2 ≤ 1024 →
      step (execState code consts ip (rest ++ [.integer n, .float q]) g out) =
        .next (execState code consts (ip + 1)
          (rest ++ [.boolean (decide ((i64ToF64 n : ℚ) < q))]) g out)) := by
  refine ⟨?_, ?_, ?_⟩
  · intro code consts ip rest n q g out hcode hlen
    have hc : code[ip]? = some OpCode.equal := by
      rw [← List.get?_eq_getElem?]; exact hcode
    have hlt : ¬ 1024 ≤ rest.length := by omega
    have h2 := stack_two_split rest (Value.integer n) (Value.float q)
    simp only [step, execState, VMState.setIp, listModify, VMState.popV,
      VMState.push, Value.beq, List.get?_cons_zero, hc, hcode, h2,
      List.getLast?_concat, List.dropLast_concat, List.length_append,
      List.length_cons, List.length_nil]
    simp [List.set, Value.beq, hlt]
  · intro code consts ip rest n q g out hcode hlen
    have hc : code[ip]? = some OpCode.notEqual := by
      rw [← List.get?_eq_getElem?]; exact hcode
    have hlt : ¬ 1024 ≤ rest.length := by omega
    have h2 := stack_two_split rest (Value.integer n) (Value.float q)
    simp only [step, execState, VMState.setIp, listModify, VMState.popV,
      VMState.push, Value.beq, List.get?_cons_zero, hc, hcode, h2,
      List.getLast?_concat, List.dropLast_concat, List.length_append,
      List.length_cons, List.length_nil]
    simp [List.set, Value.beq, hlt]
  · intro code consts ip rest n q g out hcode hlen
    exact step_comparison_generic code consts ip rest (.integer n) (.float q)
      ((i64ToF64 n : Int) : ℚ) q g out .less _ (Or.inl ⟨rfl, rfl⟩) hcode rfl hlen

/-- C9 witness: with `1` and `1.0` on the stack, `Equal` pushes `false`
(`1 == 1.0` is false) although `LessEqual`-style numeric comparison would
treat them as equal. -/
theorem c9_witness :
    step (execState [.equal] [] 0 [.integer 1, .float 1] [] []) =
      .next (execState [.equal] [] 1 [.boolean false] [] []) :=
  c9_equal_structural_no_promotion.1 [.equal] [] 0 [] 1 1 [] [] rfl
    (by decide)

set_option maxRecDepth 4000 in
/-- C10.  The four ordering opcodes convert both `Integer` operands to `f64`
before comparing (`comparison_op`), the conversion is exact (hence the
comparison agrees with `i64` comparison) whenever both magnitudes are at
most `2 ^ 53`, and at `a = 2 ^ 53`, `b = 2 ^ 53 + 1` — both valid `i64`
values with `a < b` — `Less` pushes `false` because both convert to the same
float. -/
theorem c10_comparison_via_f64 :
    (∀ (code : List OpCode) (consts : List Value) (ip : Nat)
      (rest : List Value) (x y : Int) (g : List (String × Value))
      (out : List String) (op : OpCode) (f : ℚ → ℚ → Bool),
      ((op = .less ∧ f = fun u v => decide (u < v)) ∨
       (op = .lessEqual ∧ f = fun u v => decide (u ≤ v)) ∨
       (op = .greater ∧ f = fun u v => decide (u > v)) ∨
       (op = .greaterEqual ∧ f = fun u v => decide (u ≥ v))) →
      code.get? ip = some op → rest.length + 2 ≤ 1024 →
      step (execState code consts ip (rest ++ [.integer x, .integer y]) g out) =
        .next (execState code consts (ip + 1)
          (rest ++ [.boolean (f (i64ToF64 x : ℚ) (i64ToF64 y : ℚ))]) g out)) ∧
    (∀ x y : Int, x.natAbs ≤ 2 ^ 53 → y.natAbs ≤ 2 ^ 53 →
      (((i64ToF64 x : ℚ) < (i64ToF64 y : ℚ)) ↔ x < y) ∧
      (((i64ToF64 x : ℚ) ≤ (i64ToF64 y : ℚ)) ↔ x ≤ y)) ∧
    ((9007199254740992 : Int) = 2 ^ 53 ∧
      (9007199254740992 : Int) < 9007199254740993 ∧
      fitsI64 9007199254740992 ∧ fitsI64 9007199254740993 ∧
      i64ToF64 9007199254740992 = i64ToF64 9007199254740993 ∧
      step (execState [.less] [] 0
          [.integer 9007199254740992, .integer 9007199254740993] [] []) =
        .next (execState [.less] [] 1 [.boolean false] [] [])) := by
  refine ⟨?_, ?_, ?_⟩
  · intro code consts ip rest x y g out op f hof hcode hlen
    exact step_comparison_generic code consts ip rest (.integer x) (.integer y)
      ((i64ToF64 x : Int) : ℚ) ((i64ToF64 y : Int) : ℚ) g out op f hof hcode
      rfl hlen
  · intro x y hx hy
    rw [i64ToF64_exact x hx, i64ToF64_exact y hy]
    exact ⟨Int.cast_lt, Int.cast_le⟩
  · refine ⟨by norm_num, by norm_num, by decide, by decide, by decide, ?_⟩
    have h := step_comparison_generic [.less] [] 0 []
      (.integer 9007199254740992) (.integer 9007199254740993)
      ((i64ToF64 9007199254740992 : Int) : ℚ)
      ((i64ToF64 9007199254740993 : Int) : ℚ)
      [] [] .less _ (Or.inl ⟨rfl, rfl⟩) rfl rfl (by decide)
    simpa [show decide (((i64ToF64 9007199254740992 : Int) : ℚ) <
      ((i64ToF64 9007199254740993 : Int) : ℚ)) = false by decide] using h

/-- C10 witness: the general conversion part applied at `Less` on the
operands `3` and `4`. -/
theorem c10_witness :
    step (execState [.less] [] 0 [.integer 3, .integer 4] [] []) =
      .next (execState [.less] [] 1 [.boolean true] [] []) := by
  have h := c10_comparison_via_f64.1 [.less] [] 0 [] 3 4 [] [] .less _
    (Or.inl ⟨rfl, rfl⟩) rfl (by decide)
  simpa [show decide ((i64ToF64 3 : ℚ) < (i64ToF64 4 : ℚ)) = true by decide]
    using h

/-- Auxiliary: dispatching `step` on `Divide` reduces to `binary_op` with the
division closure. -/
theorem step_divide_dispatch (code : List OpCode) (consts : List Value)
    (ip : Nat) (stack : List Value) (g : List (String × Value))
    (out : List String) (hcode : code.get? ip = some .divide) :
    step (execState code consts ip stack g out) =
      (execState code consts (ip + 1) stack g out).binaryOpArith divOp := by
  have hc : code[ip]? = some OpCode.divide := by
    rw [← List.get?_eq_getElem?]; exact hcode
  simp [step, execState, hc, VMState.setIp, listModify]

/-- Auxiliary: dispatching `step` on `Modulo` reduces to `binary_op` with the
modulo closure. -/
theorem step_modulo_dispatch (code : List OpCode) (consts : List Value)
    (ip : Nat) (stack : List Value) (g : List (String × Value))
    (out : List String) (hcode : code.get? ip = some .modulo) :
    step (execState code consts ip stack g out) =
      (execState code consts (ip + 1) stack g out).binaryOpArith modOp := by
  have hc : code[ip]? = some OpCode.modulo := by
    rw [← List.get?_eq_getElem?]; exact hcode
  simp [step, execState, hc, VMState.setIp, listModify]

set_option maxRecDepth 4000 in
/-- C4.  For numeric operands, `Divide` fails with `DivisionByZero` exactly
when the right operand is integer 0 or float 0.0, and `Modulo` — defined only
on two integers, any float operand is a `TypeError` — fails with
`DivisionByZero` exactly when the right operand is integer 0; otherwise each
pushes the arithmetic result, promoting to float when the operand types are
mixed (the `i64::MIN / -1` overflow panic is excluded from the result
clauses, as Rust panics there instead of producing a value). -/
theorem c4_div_mod_zero_exactly :
    (∀ (code : List OpCode) (consts : List Value) (ip : Nat)
      (rest : List Value) (x y : Int) (g : List (String × Value))
      (out : List String), code.get? ip = some .divide →
      rest.length + 2 ≤ 1024 →
      ((step (execState code consts ip (rest ++ [.integer x, .integer y]) g out) =
          .err .divisionByZero (execState code consts (ip + 1) rest g out) ↔
        y = 0) ∧
       (y ≠ 0 → ¬(x = i64Min ∧ y = -1) →
        step (execState code consts ip (rest ++ [.integer x, .integer y]) g out) =
          .next (execState code consts (ip + 1)
            (rest ++ [.integer (Int.tdiv x y)]) g out)))) ∧
    (∀ (code : List OpCode) (consts : List Value) (ip : Nat)
      (rest : List Value) (x y : ℚ) (g : List (String × Value))
      (out : List String), code.get? ip = some .divide →
      rest.length + 2 ≤ 1024 →
      ((step (execState code consts ip (rest ++ [.float x, .float y]) g out) =
          .err .divisionByZero (execState code consts (ip + 1) rest g out) ↔
        y = 0) ∧
       (y ≠ 0 →
        step (execState code consts ip (rest ++ [.float x, .float y]) g out) =
          .next (execState code consts (ip + 1)
            (rest ++ [.float (x / y)]) g out)))) ∧
    (∀ (code : List OpCode) (consts : List Value) (ip : Nat)
      (rest : List Value) (x : Int) (y : ℚ) (g : List (String × Value))
      (out : List String), code.get? ip = some .divide →
      rest.length + 2 ≤ 1024 →
      ((step (execState code consts ip (rest ++ [.integer x, .float y]) g out) =
          .err .divisionByZero (execState code consts (ip + 1) rest g out) ↔
        y = 0) ∧
       (y ≠ 0 →
        step (execState code consts ip (rest ++ [.integer x, .float y]) g out) =
          .next (execState code consts (ip + 1)
            (rest ++ [.float ((i64ToF64 x : ℚ) / y)]) g out)))) ∧
    (∀ (code : List OpCode) (consts : List Value) (ip : Nat)
      (rest : List Value) (x : ℚ) (y : Int) (g : List (String × Value))
      (out : List String), code.get? ip = some .divide →
      rest.length + 2 ≤ 1024 →
      ((step (execState code consts ip (rest ++ [.float x, .integer y]) g out) =
          .err .divisionByZero (execState code consts (ip + 1) rest g out) ↔
        y = 0) ∧
       (y ≠ 0 →
        step (execState code consts ip (rest ++ [.float x, .integer y]) g out) =
          .next (execState code consts (ip + 1)
            (rest ++ [.float (x / (i64ToF64 y : ℚ))]) g out)))) ∧
    (∀ (code : List OpCode) (consts : List Value) (ip : Nat)
      (rest : List Value) (x y : Int) (g : List (String × Value))
      (out : List String), code.get? ip = some .modulo →
      rest.length + 2 ≤ 1024 →
      ((step (execState code consts ip (rest ++ [.integer x, .integer y]) g out) =
          .err .divisionByZero (execState code consts (ip + 1) rest g out) ↔
        y = 0) ∧
       (y ≠ 0 → ¬(x = i64Min ∧ y = -1) →
        step (execState code consts ip (rest ++ [.integer x, .integer y]) g out) =
          .next (execState code consts (ip + 1)
            (rest ++ [.integer (Int.tmod x y)]) g out)))) ∧
    (∀ (code : List OpCode) (consts : List Value) (ip : Nat)
      (rest : List Value) (x y : ℚ) (g : List (String × Value))
      (out : List String), code.get? ip = some .modulo →
      rest.length + 2 ≤ 1024 →
      step (execState code consts ip (rest ++ [.float x, .float y]) g out) =
        .err (.typeError "Invalid operands for modulo")
          (execState code consts (ip + 1) rest g out)) ∧
    (∀ (code : List OpCode) (consts : List Value) (ip : Nat)
      (rest : List Value) (x : Int) (y : ℚ) (g : List (String × Value))
      (out : List String), code.get? ip = some .modulo →
      rest.length + 2 ≤ 1024 →
      step (execState code consts ip (rest ++ [.integer x, .float y]) g out) =
        .err (.typeError "Invalid operands for modulo")
          (execState code consts (ip + 1) rest g out)) := by
  refine ⟨?_, ?_, ?_, ?_, ?_, ?_, ?_⟩
  · intro code consts ip rest x y g out hcode hlen
    rw [step_divide_dispatch code consts ip _ g out hcode,
      binaryOpArith_eval _ _ rest _ _ rfl hlen]
    constructor
    · constructor
      · intro heq
        by_contra hy
        by_cases hover : x = i64Min ∧ y = -1
        · simp [divOp, hy, hover] at heq
        · simp [divOp, hy, hover] at heq
      · intro hy
        subst hy
        simp [divOp]
        rfl
    · intro hy hover
      simp [divOp, hy, hover]
      rfl
  · intro code consts ip rest x y g out hcode hlen
    rw [step_divide_dispatch code consts ip _ g out hcode,
      binaryOpArith_eval _ _ rest _ _ rfl hlen]
    constructor
    · constructor
      · intro heq
        by_contra hy
        simp [divOp, hy] at heq
      · intro hy
        subst hy
        simp [divOp]
        rfl
    · intro hy
      simp [divOp, hy]
      rfl
  · intro code consts ip rest x y g out hcode hlen
    rw [step_divide_dispatch code consts ip _ g out hcode,
      binaryOpArith_eval _ _ rest _ _ rfl hlen]
    constructor
    · constructor
      · intro heq
        by_contra hy
        simp [divOp, hy] at heq
      · intro hy
        subst hy
        simp [divOp]
        rfl
    · intro hy
      simp [divOp, hy]
      rfl
  · intro code consts ip rest x y g out hcode hlen
    rw [step_divide_dispatch code consts ip _ g out hcode,
      binaryOpArith_eval _ _ rest _ _ rfl hlen]
    constructor
    · constructor
      · intro heq
        by_contra hy
        simp [divOp, hy] at heq
      · intro hy
        subst hy
        simp [divOp]
        rfl
    · intro hy
      simp [divOp, hy]
      rfl
  · intro code consts ip rest x y g out hcode hlen
    rw [step_modulo_dispatch code consts ip _ g out hcode,
      binaryOpArith_eval _ _ rest _ _ rfl hlen]
    constructor
    · constructor
      · intro heq
        by_contra hy
        by_cases hover : x = i64Min ∧ y = -1
        · simp [modOp, hy, hover] at heq
        · simp [modOp, hy, hover] at heq
      · intro hy
        subst hy
        simp [modOp]
        rfl
    · intro hy hover
      simp [modOp, hy, hover]
      rfl
  · intro code consts ip rest x y g out hcode hlen
    rw [step_modulo_dispatch code consts ip _ g out hcode,
      binaryOpArith_eval _ _ rest _ _ rfl hlen]
    simp [modOp]
    rfl
  · intro code consts ip rest x y g out hcode hlen
    rw [step_modulo_dispatch code consts ip _ g out hcode,
      binaryOpArith_eval _ _ rest _ _ rfl hlen]
    simp [modOp]
    rfl

/-- C4 witness: `6 / 0` raises `DivisionByZero`, `6 / 3` pushes `2`, and
`7 mod 0` raises `DivisionByZero`. -/
theorem c4_witness :
    step (execState [.divide] [] 0 [.integer 6, .integer 0] [] []) =
      .err .divisionByZero (execState [.divide] [] 1 [] [] []) ∧
    step (execState [.divide] [] 0 [.integer 6, .integer 3] [] []) =
      .next (execState [.divide] [] 1 [.integer 2] [] []) ∧
    step (execState [.modulo] [] 0 [.integer 7, .integer 0] [] []) =
      .err .divisionByZero (execState [.modulo] [] 1 [] [] []) := by
  refine ⟨?_, ?_, ?_⟩
  · exact ((c4_div_mod_zero_exactly.1 [.divide] [] 0 [] 6 0 [] [] rfl
      (by decide)).1).2 rfl
  · have h := ((c4_div_mod_zero_exactly.1 [.divide] [] 0 [] 6 3 [] [] rfl
      (by decide)).2) (by decide) (by decide)
    simpa using h
  · exact ((c4_div_mod_zero_exactly.2.2.2.2.1 [.modulo] [] 0 [] 7 0 [] [] rfl
      (by decide)).1).2 rfl

/-- Auxiliary: indexing just past a prefix. -/
theorem get?_append_cons (l : List α) (v : α) (r : List α) :
    (l ++ v :: r).get? l.length = some v := by
  induction l with
  | nil => rfl
  | cons a l ih => simpa using ih

/-- Auxiliary: `Vec::remove` just past a prefix. -/
theorem eraseIdx_append_cons (l : List α) (v : α) (r : List α) :
    (l ++ v :: r).eraseIdx l.length = l ++ r := by
  induction l with
  | nil => rfl
  | cons a l ih => simp [ih]

/-- Auxiliary: updating the final element of a list. -/
theorem listModify_append_last (l : List α) (x : α) (f : α → α) :
    listModify (l ++ [x]) l.length f = l ++ [f x] := by
  unfold listModify
  rw [get?_append_cons]
  induction l with
  | nil => rfl
  | cons a l ih => simpa using ih

/-- Auxiliary: `Value::Function` round-trips through `Value.toFunction`. -/
theorem toFunction_toValue (f : Function) : f.toValue.toFunction = some f := by
  obtain ⟨n, a, ⟨c, k, li⟩, lc⟩ := f
  rfl

/-- C3.  The call protocol: with stack `[..., f, arg1..argn]`, `Call(n)` on a
`Function` of arity `n` removes the function value and pushes a frame at
instruction 0 whose `stack_offset` is the post-removal stack length minus
`n` (so the arguments sit at local slots `0..n-1`); a `Function` of any
other arity raises `InvalidOperation`, and a non-function callee raises
`TypeError`.  `Return` pops the result, truncates the stack to the current
frame's `stack_offset`, pops the frame and pushes the result onto the
caller's stack — or terminates cleanly when no caller remains. -/
theorem c3_call_return_protocol :
    (∀ (rest : List Value) (g : List (String × Value))
      (frames : List CallFrame) (cf : Nat) (out : List String)
      (frame : CallFrame) (fn : Function) (args : List Value) (n : Nat),
      frames.get? cf = some frame →
      frame.function.chunk.code.get? frame.ip = some (.call n) →
      args.length = n →
      (fn.arity = n →
        step ⟨rest ++ fn.toValue :: args, g, frames, cf, out⟩ =
          .next ⟨rest ++ args, g,
            listModify frames cf (fun f => { f with ip := frame.ip + 1 }) ++
              [⟨fn, 0, (rest ++ args).length - n⟩], cf + 1, out⟩) ∧
      (fn.arity ≠ n →
        step ⟨rest ++ fn.toValue :: args, g, frames, cf, out⟩ =
          .err (.invalidOperation ("Expected " ++ toString fn.arity ++
              " arguments but got " ++ toString n))
            ⟨rest ++ fn.toValue :: args, g,
              listModify frames cf (fun f => { f with ip := frame.ip + 1 }),
              cf, out⟩)) ∧
    (∀ (rest : List Value) (g : List (String × Value))
      (frames : List CallFrame) (cf : Nat) (out : List String)
      (frame : CallFrame) (v : Value) (args : List Value) (n : Nat),
      frames.get? cf = some frame →
      frame.function.chunk.code.get? frame.ip = some (.call n) →
      args.length = n → v.toFunction = none →
      step ⟨rest ++ v :: args, g, frames, cf, out⟩ =
        .err (.typeError "Can only call functions")
          ⟨rest ++ v :: args, g,
            listModify frames cf (fun f => { f with ip := frame.ip + 1 }),
            cf, out⟩) ∧
    (∀ (pre : List Value) (res : Value) (g : List (String × Value))
      (front : List CallFrame) (frame : CallFrame) (out : List String),
      frame.function.chunk.code.get? frame.ip = some .ret →
      pre.length + 1 ≤ 1024 →
      (front ≠ [] →
        step ⟨pre ++ [res], g, front ++ [frame], front.length, out⟩ =
          .next ⟨pre.take frame.stackOffset ++ [res], g, front,
            front.length - 1, out⟩) ∧
      (step ⟨pre ++ [res], g, [frame], 0, out⟩ =
        .done ⟨pre.take frame.stackOffset, g, [], 0, out⟩)) := by
  refine ⟨?_, ?_, ?_⟩
  · intro rest g frames cf out frame fn args n hframe hcode hargs
    have hlen : (rest ++ fn.toValue :: args).length = rest.length + 1 + n := by
      simp [hargs]; omega
    have hidx : (rest ++ fn.toValue :: args).length - 1 - n = rest.length := by
      omega
    have hoff : (rest ++ fn.toValue :: args).length - n - 1 = rest.length := by
      omega
    have hnotlt : ¬ n ≥ (rest ++ fn.toValue :: args).length := by omega
    constructor
    · intro harity
      simp only [step, hframe, hcode, VMState.setIp, VMState.peekV, hidx, hoff,
        get?_append_cons, toFunction_toValue, hnotlt, if_false,
        eraseIdx_append_cons, harity]
      simp [eraseIdx_append_cons, VMState.setIp]
    · intro harity
      simp only [step, hframe, hcode, VMState.setIp, VMState.peekV, hidx,
        get?_append_cons, toFunction_toValue, hnotlt, if_false]
      simp [harity]
  · intro rest g frames cf out frame v args n hframe hcode hargs hnf
    have hlen : (rest ++ v :: args).length = rest.length + 1 + n := by
      simp [hargs]; omega
    have hidx : (rest ++ v :: args).length - 1 - n = rest.length := by omega
    have hnotlt : ¬ n ≥ (rest ++ v :: args).length := by omega
    simp only [step, hframe, hcode, VMState.setIp, VMState.peekV, hidx,
      get?_append_cons, hnf, hnotlt, if_false]
  · intro pre res g front frame out hcode hlen
    have hget : (front ++ [frame]).get? front.length = some frame :=
      get?_append_cons front frame []
    have hmod := listModify_append_last front frame
      (fun f => { f with ip := frame.ip + 1 })
    have hget2 : (front ++ [{ frame with ip := frame.ip + 1 }]).get?
        front.length = some { frame with ip := frame.ip + 1 } :=
      get?_append_cons front _ []
    have hcond : ¬ (1024 ≤ frame.stackOffset ∧ 1024 ≤ pre.length) := by omega
    constructor
    · intro hne
      simp only [step, hget, hcode, VMState.setIp, hmod, VMState.popV,
        List.getLast?_concat, List.dropLast_concat, hget2, VMState.push,
        List.isEmpty_iff]
      simp [hne, hcond]
    · have hget0 : ([frame] : List CallFrame).get? 0 = some frame := rfl
      have hmod0 := listModify_append_last ([] : List CallFrame) frame
        (fun f => { f with ip := frame.ip + 1 })
      simp only [List.nil_append, List.length_nil] at hmod0
      have hget20 : ([{ frame with ip := frame.ip + 1 }] :
          List CallFrame).get? 0 = some { frame with ip := frame.ip + 1 } := rfl
      simp only [step, hget0, hcode, VMState.setIp, hmod0, VMState.popV,
        List.getLast?_concat, List.dropLast_concat, hget20, VMState.push,
        List.isEmpty_iff]
      simp

/-- C3 witness: calling a nullary-bodied unary function at arity 1 with one
argument pushes a frame whose stack offset makes the argument local slot 0;
a `Return` from a single remaining frame terminates cleanly. -/
theorem c3_witness :
    step ⟨[Function.toValue ⟨"f", 1, ⟨[.loadNull, .ret], [], [0, 0]⟩, 0⟩,
        .integer 5], [],
        [⟨⟨"<script>", 0, ⟨[.call 1], [], [0]⟩, 0⟩, 0, 0⟩], 0, []⟩ =
      .next ⟨[.integer 5], [],
        [⟨⟨"<script>", 0, ⟨[.call 1], [], [0]⟩, 0⟩, 1, 0⟩,
         ⟨⟨"f", 1, ⟨[.loadNull, .ret], [], [0, 0]⟩, 0⟩, 0, 0⟩], 1, []⟩ ∧
    step ⟨[.null, .integer 9], [],
        [⟨⟨"g", 0, ⟨[.ret], [], [0]⟩, 0⟩, 0, 0⟩], 0, []⟩ =
      .done ⟨[], [], [], 0, []⟩ := by
  constructor
  · have h := (c3_call_return_protocol.1 []
      [] [⟨⟨"<script>", 0, ⟨[.call 1], [], [0]⟩, 0⟩, 0, 0⟩] 0 []
      ⟨⟨"<script>", 0, ⟨[.call 1], [], [0]⟩, 0⟩, 0, 0⟩
      ⟨"f", 1, ⟨[.loadNull, .ret], [], [0, 0]⟩, 0⟩ [.integer 5] 1
      rfl rfl rfl).1 rfl
    simpa [listModify] using h
  · have h := (c3_call_return_protocol.2.2 [.null] (.integer 9) [] []
      ⟨⟨"g", 0, ⟨[.ret], [], [0]⟩, 0⟩, 0, 0⟩ [] rfl (by decide)).2
    simpa using h

namespace Ser

/-- Auxiliary: `read_exact` returns exactly the prefix it was asked for. -/
theorem readBytes_exact (bs rest : List Nat) :
    readBytes bs.length (bs ++ rest) = some (bs, rest) := by
  induction bs with
  | nil => rfl
  | cons b bs ih => simp [readBytes, ih]

/-- Auxiliary: `u32` little-endian round trip. -/
theorem readU32_round (n : Nat) (h : n < 2 ^ 32) (rest : List Nat) :
    readU32 (u32le n ++ rest) = some (n, rest) := by
  have h4 : readBytes 4 (u32le n ++ rest) = some (u32le n, rest) := by
    have h0 := readBytes_exact (u32le n) rest
    have hlen : (u32le n).length = 4 := by simp [u32le]
    rw [hlen] at h0
    exact h0
  simp only [readU32, u32le] at h4 ⊢
  rw [h4]
  simp only [Option.some.injEq, Prod.mk.injEq]
  refine ⟨?_, trivial⟩
  have e2 : (256 : Nat) ^ 2 = 65536 := by norm_num
  have e3 : (256 : Nat) ^ 3 = 16777216 := by norm_num
  have e32 : (2 : Nat) ^ 32 = 4294967296 := by norm_num
  rw [e2, e3] at *
  rw [e32] at h
  omega

/-- Auxiliary: `f64` bit-pattern round trip. -/
theorem readF64_round (bits : Nat) (h : bits < 2 ^ 64) (rest : List Nat) :
    readF64 (f64le bits ++ rest) = some (bits, rest) := by
  have h8 : readBytes 8 (f64le bits ++ rest) = some (f64le bits, rest) := by
    have h0 := readBytes_exact (f64le bits) rest
    have hlen : (f64le bits).length = 8 := by simp [f64le]
    rw [hlen] at h0
    exact h0
  simp only [readF64, f64le] at h8 ⊢
  rw [h8]
  simp only [Option.some.injEq, Prod.mk.injEq]
  refine ⟨?_, trivial⟩
  have e2 : (256 : Nat) ^ 2 = 65536 := by norm_num
  have e3 : (256 : Nat) ^ 3 = 16777216 := by norm_num
  have e4 : (256 : Nat) ^ 4 = 4294967296 := by norm_num
  have e5 : (256 : Nat) ^ 5 = 1099511627776 := by norm_num
  have e6 : (256 : Nat) ^ 6 = 281474976710656 := by norm_num
  have e7 : (256 : Nat) ^ 7 = 72057594037927936 := by norm_num
  have e64 : (2 : Nat) ^ 64 = 18446744073709551616 := by norm_num
  rw [e2, e3, e4, e5, e6, e7] at *
  rw [e64] at h
  omega

/-- Auxiliary: `i64` little-endian two's-complement round trip. -/
theorem readI64_round (x : Int) (h : fitsI64 x) (rest : List Nat) :
    readI64 (i64le x ++ rest) = some (x, rest) := by
  have h8 : readBytes 8 (i64le x ++ rest) = some (i64le x, rest) := by
    have h0 := readBytes_exact (i64le x) rest
    have hlen : (i64le x).length = 8 := by simp [i64le]
    rw [hlen] at h0
    exact h0
  simp only [readI64, i64le] at h8 ⊢
  rw [h8]
  simp only [Option.some.injEq, Prod.mk.injEq]
  refine ⟨?_, trivial⟩
  obtain ⟨hlo, hhi⟩ := h
  simp only [i64Min, i64Max] at hlo hhi
  have e2 : (256 : Nat) ^ 2 = 65536 := by norm_num
  have e3 : (256 : Nat) ^ 3 = 16777216 := by norm_num
  have e4 : (256 : Nat) ^ 4 = 4294967296 := by norm_num
  have e5 : (256 : Nat) ^ 5 = 1099511627776 := by norm_num
  have e6 : (256 : Nat) ^ 6 = 281474976710656 := by norm_num
  have e7 : (256 : Nat) ^ 7 = 72057594037927936 := by norm_num
  rw [e2, e3, e4, e5, e6, e7]
  have hm0 : 0 ≤ x.emod (2 ^ 64) := Int.emod_nonneg x (by norm_num)
  have hm1 : x.emod (2 ^ 64) < 2 ^ 64 := Int.emod_lt_of_pos x (by norm_num)
  have hcomb : (x.emod (2 ^ 64)).toNat % 256 +
      256 * ((x.emod (2 ^ 64)).toNat / 256 % 256) +
      65536 * ((x.emod (2 ^ 64)).toNat / 65536 % 256) +
      16777216 * ((x.emod (2 ^ 64)).toNat / 16777216 % 256) +
      4294967296 * ((x.emod (2 ^ 64)).toNat / 4294967296 % 256) +
      1099511627776 * ((x.emod (2 ^ 64)).toNat / 1099511627776 % 256) +
      281474976710656 * ((x.emod (2 ^ 64)).toNat / 281474976710656 % 256) +
      72057594037927936 * ((x.emod (2 ^ 64)).toNat / 72057594037927936 % 256) =
      (x.emod (2 ^ 64)).toNat := by
    omega
  rw [hcomb]
  have hconv : ∀ a b : Int, a.emod b = a % b := fun _ _ => rfl
  simp only [hconv] at hm0 hm1 ⊢
  split <;> omega

/-- Auxiliary: opcode byte-level round trip. -/
theorem decodeOp_round (op : SOp) (h : wfOp op) (rest : List Nat) :
    decodeOp (encodeOp op ++ rest) = some (op, rest) := by
  cases op <;> simp_all [encodeOp, decodeOp, wfOp, readU32_round]

/-- Auxiliary: instruction-stream round trip. -/
theorem decodeOps_round (ops : List SOp) (h : ∀ op ∈ ops, wfOp op)
    (rest : List Nat) :
    decodeOps ops.length (encodeOps ops ++ rest) = some (ops, rest) := by
  induction ops generalizing rest with
  | nil => rfl
  | cons op ops ih =>
    have h1 : wfOp op := h op (List.mem_cons_self op ops)
    have h2 : ∀ o ∈ ops, wfOp o := fun o hm => h o (List.mem_cons_of_mem _ hm)
    simp [encodeOps, decodeOps, decodeOp_round op h1, ih h2]

/-- Auxiliary: line-table round trip. -/
theorem decodeLines_round (ls : List Nat) (h : ∀ l ∈ ls, l < 2 ^ 32)
    (rest : List Nat) :
    decodeLines ls.length (encodeLines ls ++ rest) = some (ls, rest) := by
  induction ls generalizing rest with
  | nil => rfl
  | cons l ls ih =>
    have h1 : l < 2 ^ 32 := h l (List.mem_cons_self l ls)
    have h2 : ∀ x ∈ ls, x < 2 ^ 32 := fun x hm => h x (List.mem_cons_of_mem _ hm)
    simp [encodeLines, decodeLines, readU32_round l h1, ih h2]

/-- Auxiliary: every value encoding starts with a tag byte. -/
theorem one_le_encodeValue (v : SValue) : 1 ≤ (encodeValue v).length := by
  cases v <;> simp [encodeValue]

/-- Auxiliary: a member encoding is no longer than the list encoding. -/
theorem encodeValue_le_encodeValues (vs : List SValue) (v : SValue)
    (hm : v ∈ vs) : (encodeValue v).length ≤ (encodeValues vs).length := by
  induction vs with
  | nil => cases hm
  | cons w ws ih =>
    rcases List.mem_cons.mp hm with rfl | hm2
    · simp [encodeValues]
    · have := ih hm2
      simp [encodeValues]
      omega

/-- Auxiliary: members of a well-formed list are well formed. -/
theorem wfValues_mem (vs : List SValue) (h : wfValues vs) (v : SValue)
    (hm : v ∈ vs) : wfValue v := by
  induction vs with
  | nil => cases hm
  | cons w ws ih =>
    rw [wfValues] at h
    rcases List.mem_cons.mp hm with rfl | hm2
    · exact h.1
    · exact ih h.2 hm2

/-- Auxiliary: the constant-reading loop round-trips given a correct element
decoder. -/
theorem decodeValuesAux_round (dec : List Nat → Option (SValue × List Nat))
    (vs : List SValue)
    (hdec : ∀ v ∈ vs, ∀ r, dec (encodeValue v ++ r) = some (v, r))
    (rest : List Nat) :
    decodeValuesAux dec vs.length (encodeValues vs ++ rest) =
      some (vs, rest) := by
  induction vs generalizing rest with
  | nil => rfl
  | cons v vs ih =>
    have h1 := hdec v (List.mem_cons_self v vs) (encodeValues vs ++ rest)
    have h2 : ∀ w ∈ vs, ∀ r, dec (encodeValue w ++ r) = some (w, r) :=
      fun w hm => hdec w (List.mem_cons_of_mem _ hm)
    simp only [encodeValues, List.length_cons, decodeValuesAux,
      List.append_assoc, h1, ih h2]

set_option maxRecDepth 4000 in
/-- Auxiliary: `read_value` recovers every well-formed value from its
encoding whenever the recursion budget covers the encoding length (one byte
per nesting level is ample, since every level contributes a tag byte). -/
theorem decodeValue_round : ∀ (fuel : Nat) (v : SValue) (rest : List Nat),
    wfValue v → (encodeValue v).length ≤ fuel →
    decodeValue fuel (encodeValue v ++ rest) = some (v, rest)
  | 0, v, rest, _, hfuel => by
    exact absurd hfuel (by have := one_le_encodeValue v; omega)
  | fuel + 1, v, rest, hwf, hfuel => by
    cases v with
    | integer i =>
      rw [wfValue] at hwf
      simp [decodeValue, encodeValue, readI64_round i hwf rest]
    | float bits =>
      rw [wfValue] at hwf
      simp [decodeValue, encodeValue, readF64_round bits hwf rest]
    | str bytes =>
      rw [wfValue] at hwf
      have hb := readBytes_exact bytes rest
      simp [decodeValue, encodeValue, readU32_round bytes.length hwf.1, hb]
    | boolean b =>
      cases b <;> simp [decodeValue, encodeValue]
    | char bytes =>
      rw [wfValue] at hwf
      have hlt : bytes.length % 256 = bytes.length :=
        Nat.mod_eq_of_lt (by omega)
      have hb := readBytes_exact bytes rest
      simp [decodeValue, encodeValue, hlt, hb]
    | array elems =>
      rw [wfValue] at hwf
      have hlen : (encodeValue (.array elems)).length =
          5 + (encodeValues elems).length := by
        simp [encodeValue, u32le]
        omega
      have hdec : ∀ w ∈ elems, ∀ r,
          decodeValue fuel (encodeValue w ++ r) = some (w, r) := by
        intro w hm r
        have hwfw := wfValues_mem elems hwf.2 w hm
        have hle := encodeValue_le_encodeValues elems w hm
        exact decodeValue_round fuel w r hwfw (by omega)
      have haux := decodeValuesAux_round (fun inp => decodeValue fuel inp)
        elems hdec rest
      simp [decodeValue, encodeValue, readU32_round elems.length hwf.1, haux]
    | func name arity localsCount constants code lines =>
      rw [wfValue] at hwf
      obtain ⟨⟨hn1, hn2⟩, ha, hl, hc, hcd, hll, hlw, hwfc, hwfo⟩ := hwf
      have hlen : (encodeValue (.func name arity localsCount constants code
          lines)).length = 21 + name.length + (encodeValues constants).length
          + (encodeOps code).length + (encodeLines lines).length := by
        simp [encodeValue, u32le]
        omega
      have hdec : ∀ w ∈ constants, ∀ r,
          decodeValue fuel (encodeValue w ++ r) = some (w, r) := by
        intro w hm r
        have hwfw := wfValues_mem constants hwfc w hm
        have hle := encodeValue_le_encodeValues constants w hm
        exact decodeValue_round fuel w r hwfw (by omega)
      have hname := readBytes_exact name
        (u32le arity ++ u32le localsCount ++ u32le constants.length ++
          u32le code.length ++ encodeValues constants ++ encodeOps code ++
          encodeLines lines ++ rest)
      have haux := decodeValuesAux_round (fun inp => decodeValue fuel inp)
        constants hdec (encodeOps code ++ encodeLines lines ++ rest)
      have hops := decodeOps_round code hwfo (encodeLines lines ++ rest)
      have hlines := decodeLines_round lines hlw rest
      rw [hll] at hlines
      simp only [List.append_assoc] at hname haux hops hlines
      simp [decodeValue, encodeValue, readU32_round name.length hn1,
        readU32_round arity ha, readU32_round localsCount hl,
        readU32_round constants.length hc, readU32_round code.length hcd,
        hname, haux, hops, hlines, hll]
    | null =>
      simp [decodeValue, encodeValue]
    | strukt name fields =>
      rw [wfValue] at hwf
      obtain ⟨⟨hn1, hn2⟩, hf, hwff⟩ := hwf
      have hdec : ∀ w ∈ fields, ∀ r,
          decodeValue fuel (encodeValue w ++ r) = some (w, r) := by
        intro w hm r
        have hwfw := wfValues_mem fields hwff w hm
        have hle := encodeValue_le_encodeValues fields w hm
        have hlen : (encodeValue (.strukt name fields)).length =
            9 + name.length + (encodeValues fields).length := by
          simp [encodeValue, u32le]
          omega
        exact decodeValue_round fuel w r hwfw (by omega)
      have hname := readBytes_exact name
        (u32le fields.length ++ encodeValues fields ++ rest)
      have haux := decodeValuesAux_round (fun inp => decodeValue fuel inp)
        fields hdec rest
      simp only [List.append_assoc] at hname haux
      simp [decodeValue, encodeValue, readU32_round name.length hn1,
        readU32_round fields.length hf, hname, haux]

set_option maxRecDepth 4000 in
/-- C6.  Deserializing the bytes produced by serializing any chunk whose
line table is as long as its code and whose lengths, pool indices, jump
targets, line numbers and payloads fit the widths the format writes
(`wfChunk`) yields exactly that chunk, nested `Function` constants
included. -/
theorem c6_serialize_deserialize_roundtrip (c : SChunk) (h : wfChunk c) :
    deserialize (serialize c) = some c := by
  obtain ⟨code, constants, lines⟩ := c
  obtain ⟨hc, hcd, hll, hlw, hwfc, hwfo⟩ := h
  simp only at hc hcd hll hlw hwfc hwfo
  have hser : (serialize ⟨code, constants, lines⟩).length =
      16 + (encodeValues constants).length + (encodeOps code).length +
        (encodeLines lines).length := by
    simp [serialize, magic, u16le, u32le]
    omega
  simp only [deserialize]
  generalize hN : (serialize ⟨code, constants, lines⟩).length = N
  rw [hN] at hser
  have hdec : ∀ w ∈ constants, ∀ r,
      decodeValue N (encodeValue w ++ r) = some (w, r) := by
    intro w hm r
    have hwfw := wfValues_mem constants hwfc w hm
    have hle := encodeValue_le_encodeValues constants w hm
    exact decodeValue_round N w r hwfw (by omega)
  have hmag : readBytes 4
      (magic ++ (u16le 0 ++ (u16le 1 ++ (u32le constants.length ++
        (u32le code.length ++ (encodeValues constants ++
          (encodeOps code ++ encodeLines lines))))))) =
      some (magic, u16le 0 ++ (u16le 1 ++ (u32le constants.length ++
        (u32le code.length ++ (encodeValues constants ++
          (encodeOps code ++ encodeLines lines)))))) :=
    readBytes_exact magic _
  have hv0 : readBytes 2
      (u16le 0 ++ (u16le 1 ++ (u32le constants.length ++
        (u32le code.length ++ (encodeValues constants ++
          (encodeOps code ++ encodeLines lines)))))) =
      some (u16le 0, u16le 1 ++ (u32le constants.length ++
        (u32le code.length ++ (encodeValues constants ++
          (encodeOps code ++ encodeLines lines))))) :=
    readBytes_exact (u16le 0) _
  have hv1 : readBytes 2
      (u16le 1 ++ (u32le constants.length ++
        (u32le code.length ++ (encodeValues constants ++
          (encodeOps code ++ encodeLines lines))))) =
      some (u16le 1, u32le constants.length ++
        (u32le code.length ++ (encodeValues constants ++
          (encodeOps code ++ encodeLines lines)))) :=
    readBytes_exact (u16le 1) _
  have haux := decodeValuesAux_round (fun inp => decodeValue N inp)
    constants hdec (encodeOps code ++ encodeLines lines)
  have hops := decodeOps_round code hwfo (encodeLines lines)
  have hlines1 : decodeLines code.length (encodeLines lines) =
      some (lines, []) := by
    have h0 := decodeLines_round lines hlw ([] : List Nat)
    rw [hll] at h0
    simpa using h0
  simp only [List.append_assoc] at haux hops
  simp [deserializeFuel, serialize, hmag, hv0, hv1,
    readU32_round constants.length hc, readU32_round code.length hcd,
    haux, hops, hlines1]

/-- C6 witness: the round trip applied to the concrete chunk `c6chunk`,
whose pool includes a nested `Function` constant. -/
theorem c6_witness :
    wfChunk c6chunk ∧ deserialize (serialize c6chunk) = some c6chunk := by
  have hwf : wfChunk c6chunk := by
    norm_num [c6chunk, wfChunk, wfValues, wfValue, wfOp, fitsI64, i64Min,
      i64Max]
  exact ⟨hwf, c6_serialize_deserialize_roundtrip c6chunk hwf⟩

end Ser

end Zero
